import Mathlib

/-!
# Phisher extension popup: a verification development

A shallow embedding of the popup controller (`src/popup/popup.js`, class
`PhishingDetector`) and of the template manager
(`src/popup/templateManager.js`, class `TemplateManager`), followed by theorems
about them.

Conventions of the embedding.

* JavaScript strings are Lean strings; where the code scans a string character
  by character the model works on `List Char`.  Every character the two regular
  expressions of the program can match is ASCII, so scanning code points and
  scanning UTF-16 code units accept the same strings.
* Integer-valued JavaScript numbers are `Int` (scores) or `Nat` (counters that
  start at zero and are only incremented).
* Asynchronous methods are run to completion, one after the other: a method is
  a function from the session state to a result and a new session state.
  Everything the outside world decides during a call (the outcome of `fetch`,
  the fresh UUID, the random confidence fallback, a failing storage write) is
  read from an `Env` value.
* The main view of the popup is mounted: the elements that the code looks up by
  id exist.  The chrome storage reads succeed.
-/

namespace Phisher

/-! ## Data model -/

/-- The JSON object returned by `POST /analyze`, as far as the popup reads it.
Fields that the code guards with `||` or `&&` may be absent. -/
structure AnalysisResult where
  isPhishing : Bool
  riskScore : Int
  confidence : Option Int
  threats : Option (List String)
  description : Option String
  recommendation : Option String
  deriving DecidableEq, Repr

/-- The field `this.stats` of the constructor (popup.js, lines 7-11). -/
structure Stats where
  totalChecks : Nat
  threatsBlocked : Nat
  safeUrls : Nat
  deriving DecidableEq, Repr

/-- The value stored under `phisherSettings` in `chrome.storage.sync`. -/
structure Settings where
  detectionSensitivity : Option String
  realTimeProtection : Bool
  autoBlockThreats : Bool
  deriving DecidableEq, Repr

/-- The JSON body and target of one `fetch` to the analyze endpoint
(popup.js, lines 166-180); `userAgent` and `timestamp` are left out. -/
structure AnalyzeRequest where
  endpoint : String
  url : String
  sensitivity : String
  userId : String
  deriving DecidableEq, Repr

/-- What `await response.json()` yields. -/
inductive JsonBody where
  | unparseable
  | value (r : AnalysisResult)
  deriving DecidableEq, Repr

/-- What `await fetch(...)` yields: a rejected promise or a response. -/
inductive FetchOutcome where
  | transportError
  | response (status : Nat) (body : JsonBody)
  deriving DecidableEq, Repr

/-- Everything the outside world decides during one call. -/
structure Env where
  fetchOutcome : FetchOutcome
  freshUserId : String
  statsWriteFails : Bool
  randomConfidence : Nat
  deriving DecidableEq, Repr

/-- The part of the popup document that the analysis flow reads and writes. -/
structure View where
  urlInput : String
  inputErrors : List String
  analyzeBtnDisabled : Bool
  btnContentShown : Bool
  btnSpinnerShown : Bool
  loadingIndicatorShown : Bool
  analysisResultShown : Bool
  resultIconClass : String
  resultTitle : String
  resultDescription : String
  confidenceScore : String
  scoreFillWidth : String
  scoreFillClass : String
  scoreText : String
  threatList : List String
  recommendationText : String
  totalChecksText : String
  threatsBlockedText : String
  safeUrlsText : String
  deriving DecidableEq, Repr

/-- The state of one popup session: the fields of `PhishingDetector`, the
chrome storage areas it uses, the document, and the log of the requests sent to
the analyze endpoint (oldest first). -/
structure Session where
  apiUrl : String
  analysisCache : List (String × AnalysisResult)
  stats : Stats
  storedStats : Option Stats
  storedSettings : Option Settings
  storedUserId : Option String
  requests : List AnalyzeRequest
  view : View
  deriving DecidableEq, Repr

/-! ## The analysis cache (`Map`) -/

/-- The method `Map.prototype.has`. -/
def mapHas {α : Type} (m : List (String × α)) (k : String) : Bool :=
  m.any (fun e => e.1 == k)

/-- The method `Map.prototype.get`; `none` is `undefined`. -/
def mapGet {α : Type} (m : List (String × α)) (k : String) : Option α :=
  (m.find? (fun e => e.1 == k)).map (fun e => e.2)

/-- The method `Map.prototype.set`: an existing key keeps its place. -/
def mapSet {α : Type} (m : List (String × α)) (k : String) (v : α) : List (String × α) :=
  if mapHas m k then m.map (fun e => if e.1 == k then (k, v) else e) else m ++ [(k, v)]

/-! ## Risk level and statistics -/

/-- The method `getRiskLevel` (popup.js, lines 339-343). -/
def getRiskLevel (riskScore : Int) : String :=
  if riskScore ≥ 70 then "danger"
  else if riskScore ≥ 30 then "warning"
  else "safe"

/-- The method `updateStatsDisplay` (popup.js, lines 367-371). -/
def updateStatsDisplay (s : Session) : Session :=
  { s with view := { s.view with
      totalChecksText := toString s.stats.totalChecks
      threatsBlockedText := toString s.stats.threatsBlocked
      safeUrlsText := toString s.stats.safeUrls } }

/-- The method `saveStats` (popup.js, lines 397-403): a failing write is logged
and swallowed. -/
def saveStats (env : Env) (s : Session) : Session :=
  if env.statsWriteFails then s else { s with storedStats := some s.stats }

/-- The counter updates of `updateStats` (popup.js, lines 355-361). -/
def bumpStats (result : AnalysisResult) (st : Stats) : Stats :=
  let st1 := { st with totalChecks := st.totalChecks + 1 }
  if result.isPhishing then { st1 with threatsBlocked := st1.threatsBlocked + 1 }
  else if result.riskScore < 30 then { st1 with safeUrls := st1.safeUrls + 1 }
  else st1

/-- The method `updateStats` (popup.js, lines 354-365). -/
def updateStats (env : Env) (result : AnalysisResult) (s : Session) : Session :=
  updateStatsDisplay (saveStats env { s with stats := bumpStats result s.stats })

/-! ## Settings and user id -/

/-- The in-code default of `getSettings` (popup.js, lines 376-380). -/
def defaultSettings : Settings :=
  { detectionSensitivity := some "balanced", realTimeProtection := true, autoBlockThreats := false }

/-- The method `getSettings` (popup.js, lines 373-384). -/
def getSettings (s : Session) : Settings :=
  match s.storedSettings with
  | some st => st
  | none => defaultSettings

/-- The expression `settings.detectionSensitivity || 'balanced'` (line 162). -/
def sensitivityOf (st : Settings) : String :=
  match st.detectionSensitivity with
  | some v => if v = "" then "balanced" else v
  | none => "balanced"

/-- The method `getUserId` (popup.js, lines 652-662): a stored, non-empty id is
returned; otherwise a fresh one is generated and stored. -/
def getUserId (env : Env) (s : Session) : String × Session :=
  match s.storedUserId with
  | some id =>
    if id = "" then (env.freshUserId, { s with storedUserId := some env.freshUserId })
    else (id, s)
  | none => (env.freshUserId, { s with storedUserId := some env.freshUserId })

/-! ## analyzeUrl -/

/-- The message of the error thrown by the `catch` of `analyzeUrl` (line 197). -/
def analysisFailedMessage : String :=
  "Failed to analyze URL. Please check if the backend is running."

/-- The property `response.ok`. -/
def responseOk (status : Nat) : Bool :=
  decide (200 ≤ status) && decide (status ≤ 299)

/-- The `try` block of `analyzeUrl` (popup.js, lines 166-194), entered after
the request has been logged: the error is the one thrown inside the block. -/
def analyzeTry (env : Env) (url : String) (s : Session) : Except String AnalysisResult × Session :=
  match env.fetchOutcome with
  | .transportError => (.error "Failed to fetch", s)
  | .response status body =>
    if responseOk status then
      match body with
      | .unparseable => (.error "Unexpected token in JSON", s)
      | .value result =>
        let s1 := { s with analysisCache := mapSet s.analysisCache url result }
        (.ok result, updateStats env result s1)
    else (.error ("HTTP error! status: " ++ toString status), s)

/-- The method `analyzeUrl` (popup.js, lines 154-199).  The cache maps a URL to
a result object, never to `undefined`, so the test `has(url)` followed by
`get(url)` is one lookup: `mapHas` is true exactly when `mapGet` finds a result
(`mapGet_isSome_of_mapHas`, `mapGet_eq_none_of_not_mapHas`). -/
def analyzeUrl (env : Env) (url : String) (s : Session) : Except String AnalysisResult × Session :=
  match mapGet s.analysisCache url with
  | some r => (.ok r, s)
  | none =>
    let sensitivity := sensitivityOf (getSettings s)
    let (userId, s1) := getUserId env s
    let req : AnalyzeRequest :=
      { endpoint := s.apiUrl ++ "/analyze", url := url, sensitivity := sensitivity, userId := userId }
    let s2 := { s1 with requests := s1.requests ++ [req] }
    match analyzeTry env url s2 with
    | (.ok r, s3) => (.ok r, s3)
    | (.error _, s3) => (.error analysisFailedMessage, s3)

/-! ## The main view -/

/-- The method `showInputError` (popup.js, lines 300-310); the border colour
that a timer resets after three seconds is left out. -/
def showInputError (message : String) (s : Session) : Session :=
  { s with view := { s.view with inputErrors := s.view.inputErrors ++ [message] } }

/-- The method `setAnalyzeButtonLoading` (popup.js, lines 312-337). -/
def setAnalyzeButtonLoading (loading : Bool) (s : Session) : Session :=
  if loading then
    { s with view := { s.view with
        btnContentShown := false, btnSpinnerShown := true, analyzeBtnDisabled := true } }
  else
    { s with view := { s.view with
        btnContentShown := true, btnSpinnerShown := false, analyzeBtnDisabled := false } }

/-- The expression `a || b` for an optional string `a`. -/
def orString (a : Option String) (b : String) : String :=
  match a with
  | some v => if v = "" then b else v
  | none => b

/-- The title chosen at popup.js, lines 240-241. -/
def resultTitleOf (result : AnalysisResult) : String :=
  if result.isPhishing then "Threat Detected"
  else if result.riskScore > 30 then "Suspicious Activity"
  else "Safe URL"

/-- The confidence chosen at popup.js, line 249. -/
def confidenceOf (env : Env) (result : AnalysisResult) : Int :=
  match result.confidence with
  | some c => if c = 0 then (env.randomConfidence : Int) else c
  | none => (env.randomConfidence : Int)

/-- The default recommendation of popup.js, lines 275-277. -/
def defaultRecommendation (result : AnalysisResult) : String :=
  if result.isPhishing then "Avoid visiting this website. It may be malicious."
  else if result.riskScore > 30 then "Exercise caution when interacting with this website."
  else "This website appears to be safe to visit."

/-- The method `displayAnalysisResult` (popup.js, lines 213-279). -/
def displayAnalysisResult (env : Env) (result : AnalysisResult) (s : Session) : Session :=
  let riskLevel := getRiskLevel result.riskScore
  { s with view := { s.view with
      loadingIndicatorShown := false
      analysisResultShown := true
      resultIconClass := "threat-status " ++ riskLevel
      resultTitle := resultTitleOf result
      resultDescription := orString result.description "Neural network analysis completed"
      confidenceScore := toString (confidenceOf env result) ++ "%"
      scoreFillWidth := toString result.riskScore ++ "%"
      scoreFillClass := "meter-fill " ++ riskLevel
      scoreText := toString result.riskScore ++ "%"
      threatList := result.threats.getD []
      recommendationText := orString result.recommendation (defaultRecommendation result) } }

/-! ## Manual analysis -/

/-- The white space and line terminator characters that `String.prototype.trim`
removes. -/
def isJsWhiteSpace (c : Char) : Bool :=
  let n := c.toNat
  n = 0x09 || n = 0x0A || n = 0x0B || n = 0x0C || n = 0x0D || n = 0x20 || n = 0xA0 ||
  n = 0x1680 || (decide (0x2000 ≤ n) && decide (n ≤ 0x200A)) || n = 0x2028 || n = 0x2029 ||
  n = 0x202F || n = 0x205F || n = 0x3000 || n = 0xFEFF

/-- The method `String.prototype.trim`. -/
def jsTrim (s : String) : String :=
  String.mk (((s.toList.dropWhile isJsWhiteSpace).reverse.dropWhile isJsWhiteSpace).reverse)

/-- What the popup reads of a `URL` object. -/
structure ParsedUrl where
  protocol : String
  hostname : String
  pathname : String
  deriving DecidableEq, Repr

/-- The method `isValidHttpUrl` (popup.js, lines 345-352).  The constructor
`new URL(string)` belongs to the browser and is a parameter: `none` stands for
the `TypeError` it throws on a string that is not an absolute URL. -/
def isValidHttpUrl (parseUrl : String → Option ParsedUrl) (string : String) : Bool :=
  match parseUrl string with
  | some url => url.protocol == "http:" || url.protocol == "https:"
  | none => false

/-- The method `analyzeManualUrl` (popup.js, lines 127-152). -/
def analyzeManualUrl (parseUrl : String → Option ParsedUrl) (env : Env) (s : Session) : Session :=
  let url := jsTrim s.view.urlInput
  if url = "" then showInputError "Please enter a URL" s
  else if !isValidHttpUrl parseUrl url then showInputError "Please enter a valid URL" s
  else
    let s1 := setAnalyzeButtonLoading true s
    let s2 :=
      match analyzeUrl env url s1 with
      | (.ok result, s') =>
        let s'' := displayAnalysisResult env result s'
        { s'' with view := { s''.view with urlInput := "" } }
      | (.error _, s') => showInputError "Analysis failed. Please try again." s'
    setAnalyzeButtonLoading false s2

/-! ## Template interpolation -/

/-- The class `\w` of a regular expression without flags `i` and `u`. -/
def isWordChar (c : Char) : Bool :=
  c.isAlphanum || c == '_'

/-- One attempt of `/\{\{(\w+)\}\}/` at the start of the text: the captured
key, when the text starts with a match.  The greedy `\w+` takes the whole run
of word characters; giving characters back cannot help, since `}` is not a
word character. -/
def matchPlaceholder (s : List Char) : Option (List Char) :=
  match s with
  | a :: b :: cs =>
    if a = '{' ∧ b = '{' then
      let key := cs.takeWhile isWordChar
      if key ≠ [] ∧ (cs.dropWhile isWordChar).take 2 = ['}', '}'] then some key else none
    else none
  | _ => none

/-- The text of the match whose captured key is `key`. -/
def placeholderText (key : List Char) : List Char :=
  ['{', '{'] ++ key ++ ['}', '}']

/-- The method `String.prototype.replace` for the global pattern
`/\{\{(\w+)\}\}/g` and a replacer function `f match key`: the text is scanned
from left to right, a match is replaced by the result of `f` and the scan goes
on behind the match.  The first argument counts the characters of the current
match that are still to be skipped. -/
def replacePlaceholders (f : List Char → List Char → List Char) : Nat → List Char → List Char
  | _, [] => []
  | k + 1, _ :: cs => replacePlaceholders f k cs
  | 0, c :: cs =>
    match matchPlaceholder (c :: cs) with
    | some key => f (placeholderText key) key ++ replacePlaceholders f (key.length + 3) cs
    | none => c :: replacePlaceholders f 0 cs

/-- The replacer of `interpolate` (templateManager.js, lines 56-58); `data`
lists the own properties of the data object with their values as strings. -/
def replacer (data : List (String × String)) (text key : List Char) : List Char :=
  if mapHas data (String.mk key) then
    match mapGet data (String.mk key) with
    | some v => v.toList
    | none => "undefined".toList
  else text

/-- The method `interpolate` (templateManager.js, lines 55-59). -/
def interpolate (template : String) (data : List (String × String)) : String :=
  String.mk (replacePlaceholders (replacer data) 0 template.toList)

/-- The keys captured by the matches of `/\{\{(\w+)\}\}/g` in a text, in the
order of the scan of `replacePlaceholders`. -/
def placeholderKeys : Nat → List Char → List (List Char)
  | _, [] => []
  | k + 1, _ :: cs => placeholderKeys k cs
  | 0, c :: cs =>
    match matchPlaceholder (c :: cs) with
    | some key => key :: placeholderKeys (key.length + 3) cs
    | none => placeholderKeys 0 cs

/-- A text contains a match of `/\{\{(\w+)\}\}/`. -/
def containsPlaceholder : List Char → Bool
  | [] => false
  | c :: cs => (matchPlaceholder (c :: cs)).isSome || containsPlaceholder cs

/-- The text of a template outside its placeholders: what the scan of
`replacePlaceholders` copies. -/
def literalText (template : List Char) : List Char :=
  replacePlaceholders (fun _ _ => []) 0 template

/-- An identifier: a non-empty string of word characters, the `\w+` of the
pattern. -/
def isIdentifier (key : String) : Bool :=
  !key.toList.isEmpty && key.toList.all isWordChar

/-! ## Domain validation -/

/-- A character class given as a list of characters. -/
def anyOf (cs : List Char) : RegularExpression Char :=
  cs.foldr (fun c r => RegularExpression.char c + r) 0

/-- The characters of a range such as `a-z` of a character class. -/
def charRange (lo hi : Char) : List Char :=
  (List.range (hi.toNat + 1 - lo.toNat)).map (fun i => Char.ofNat (lo.toNat + i))

/-- The class `[a-zA-Z0-9]`. -/
def alnumClass : List Char :=
  charRange 'a' 'z' ++ charRange 'A' 'Z' ++ charRange '0' '9'

/-- The class `[a-zA-Z0-9-]`. -/
def alnumHyphenClass : List Char :=
  alnumClass ++ ['-']

/-- The quantifier `{0,n}`. -/
def atMost : Nat → RegularExpression Char → RegularExpression Char
  | 0, _ => 1
  | n + 1, r => 1 + r * atMost n r

/-- A literal character under the flag `i`. -/
def ciChar (c : Char) : RegularExpression Char :=
  RegularExpression.char c.toLower + RegularExpression.char c.toUpper

/-- A literal word under the flag `i`. -/
def ciWord (w : List Char) : RegularExpression Char :=
  w.foldr (fun c r => ciChar c * r) 1

/-- The alternatives of the last group of `domainRegex` (popup.js, line 665),
in the order of the source, repetitions included. -/
def tldList : List String :=
  ["com", "org", "net", "edu", "gov", "mil", "int", "co", "io", "ly", "me", "tv", "info", "biz",
   "name", "mobi", "ws", "cc", "us", "uk", "ca", "de", "jp", "fr", "au", "in", "br", "ru", "ch",
   "it", "nl", "se", "no", "es", "mx", "be", "tr", "tw", "za", "pl", "gr", "cz", "pt", "hu", "il",
   "th", "dk", "fi", "cl", "ro", "hr", "bg", "sk", "si", "lt", "lv", "ee", "is", "mt", "lu", "cy",
   "md", "mc", "sm", "va", "ad", "li", "al", "ba", "rs", "me", "mk", "xk", "by", "ua", "am", "az",
   "ge", "kz", "kg", "md", "tj", "tm", "uz", "mn", "af", "bd", "bt", "bn", "kh", "cn", "hk", "id",
   "jp", "kr", "la", "mo", "mm", "np", "pk", "ph", "sg", "lk", "tw", "th", "tl", "vn"]

/-- An alternation of literal words under the flag `i`. -/
def anyWord (ws : List String) : RegularExpression Char :=
  ws.foldr (fun w r => ciWord w.toList + r) 0

/-- The group `[a-zA-Z0-9]([a-zA-Z0-9-]{0,61}[a-zA-Z0-9])?` of `domainRegex`. -/
def labelRegex : RegularExpression Char :=
  anyOf alnumClass * (1 + atMost 61 (anyOf alnumHyphenClass) * anyOf alnumClass)

/-- The regular expression `domainRegex` of popup.js, line 665, between its
anchors `^` and `$`: `(label\.)+(com|org|...)` under the flag `i`. -/
def domainRegex : RegularExpression Char :=
  ((labelRegex * RegularExpression.char '.') *
    RegularExpression.star (labelRegex * RegularExpression.char '.')) * anyWord tldList

/-- The method `isValidDomain` (popup.js, lines 664-667): the whole string
matches `domainRegex`. -/
def isValidDomain (domain : String) : Bool :=
  domainRegex.rmatch domain.toList

/-! ### The form of a valid domain, in the words of the specification -/

/-- A letter, a digit or a hyphen. -/
def isLabelChar (c : Char) : Bool :=
  c.isAlpha || c.isDigit || c == '-'

/-- A label: 1 to 63 letters, digits and hyphens, no hyphen first or last. -/
def IsLabel (l : List Char) : Prop :=
  1 ≤ l.length ∧ l.length ≤ 63 ∧ (∀ c ∈ l, isLabelChar c = true) ∧
    l.head? ≠ some '-' ∧ l.getLast? ≠ some '-'

/-- A suffix of the allow-list, whatever the case of its letters. -/
def IsAllowedSuffix (t : List Char) : Prop :=
  String.mk (t.map Char.toLower) ∈ tldList

/-- The form `label_1.label_2. ... .label_n.tld` with `n ≥ 1`. -/
def IsDomainForm (d : List Char) : Prop :=
  ∃ (labels : List (List Char)) (tld : List Char),
    labels ≠ [] ∧ (∀ l ∈ labels, IsLabel l) ∧ IsAllowedSuffix tld ∧
      d = (labels.map (fun l => l ++ ['.'])).flatten ++ tld

/-- The pieces of a text between its dots. -/
def splitDots : List Char → List (List Char)
  | [] => [[]]
  | c :: cs =>
    match splitDots cs with
    | [] => [[]]
    | p :: ps => if c = '.' then [] :: p :: ps else (c :: p) :: ps

/-! ## A concrete session -/

/-- A document whose elements are present and still empty, with the analyze
button in its resting state. -/
def blankView : View :=
  { urlInput := "", inputErrors := [], analyzeBtnDisabled := false, btnContentShown := true,
    btnSpinnerShown := false, loadingIndicatorShown := false, analysisResultShown := false,
    resultIconClass := "", resultTitle := "", resultDescription := "", confidenceScore := "",
    scoreFillWidth := "", scoreFillClass := "", scoreText := "", threatList := [],
    recommendationText := "", totalChecksText := "0", threatsBlockedText := "0",
    safeUrlsText := "0" }

/-- The state built by the constructor (popup.js, lines 2-17) on empty storage. -/
def newSession : Session :=
  { apiUrl := "https://phisher-backend-97nn.onrender.com", analysisCache := [],
    stats := { totalChecks := 0, threatsBlocked := 0, safeUrls := 0 }, storedStats := none,
    storedSettings := none, storedUserId := none, requests := [], view := blankView }

/-- An environment in which the request does not reach the service. -/
def offlineEnv : Env :=
  { fetchOutcome := .transportError, freshUserId := "00000000-0000-4000-8000-000000000000",
    statsWriteFails := false, randomConfidence := 90 }

/-- An analysis result with the optional fields absent. -/
def plainResult (isPhishing : Bool) (riskScore : Int) : AnalysisResult :=
  { isPhishing := isPhishing, riskScore := riskScore, confidence := none, threats := none,
    description := none, recommendation := none }

/-- An environment in which the service answers 200 with the given result. -/
def onlineEnv (r : AnalysisResult) : Env :=
  { fetchOutcome := .response 200 (.value r), freshUserId := "00000000-0000-4000-8000-000000000000",
    statsWriteFails := false, randomConfidence := 90 }

/-- A URL constructor that parses `http://example.com` and `ftp://example.com`
and throws on every other string, for the examples. -/
def exampleParseUrl (str : String) : Option ParsedUrl :=
  if str = "http://example.com" then
    some { protocol := "http:", hostname := "example.com", pathname := "/" }
  else if str = "ftp://example.com" then
    some { protocol := "ftp:", hostname := "example.com", pathname := "/" }
  else none

/-- The new session with a text typed into the URL input. -/
def typedSession (text : String) : Session :=
  { newSession with view := { blankView with urlInput := text } }

/-! ## Whitelist and blacklist managers -/

/-- A request of the list managers: the method, the URL without its query, and
the fields of the JSON body or of the query. -/
structure HttpRequest where
  method : String
  url : String
  fields : List (String × String)
  deriving DecidableEq, Repr

/-- What `fetch` yields for a request that changes a list: a rejected promise,
or a response with its status and its body, `none` when `response.json()`
rejects and otherwise the `message` field of the parsed body, if it has one. -/
inductive ListFetch where
  | transportError
  | response (status : Nat) (body : Option (Option String))
  deriving DecidableEq, Repr

/-- The state of the list managers: the session, the log of the requests sent
to the whitelist and blacklist endpoints (oldest first), the two input fields
and the messages shown, each with its type. -/
structure ManagerState where
  session : Session
  listRequests : List HttpRequest
  whitelistInput : String
  whitelistMessages : List (String × String)
  blacklistInput : String
  blacklistMessages : List (String × String)
  deriving DecidableEq, Repr

/-- The method `showWhitelistMessage` (popup.js, lines 677-693); the timer that
removes the message after three seconds is left out. -/
def showWhitelistMessage (message type : String) (st : ManagerState) : ManagerState :=
  { st with whitelistMessages := st.whitelistMessages ++ [(message, type)] }

/-- The method `showWhitelistError` (popup.js, lines 669-671). -/
def showWhitelistError (message : String) (st : ManagerState) : ManagerState :=
  showWhitelistMessage message "error" st

/-- The method `showWhitelistSuccess` (popup.js, lines 673-675). -/
def showWhitelistSuccess (message : String) (st : ManagerState) : ManagerState :=
  showWhitelistMessage message "success" st

/-- The method `showBlacklistMessage` (popup.js, lines 877-893); the timer that
removes the message after three seconds is left out. -/
def showBlacklistMessage (message type : String) (st : ManagerState) : ManagerState :=
  { st with blacklistMessages := st.blacklistMessages ++ [(message, type)] }

/-- The method `showBlacklistError` (popup.js, lines 869-871). -/
def showBlacklistError (message : String) (st : ManagerState) : ManagerState :=
  showBlacklistMessage message "error" st

/-- The method `showBlacklistSuccess` (popup.js, lines 873-875). -/
def showBlacklistSuccess (message : String) (st : ManagerState) : ManagerState :=
  showBlacklistMessage message "success" st

/-- The user id and the log after a request of the list managers has been
sent with the stored or fresh user id among its fields. -/
def sendListRequest (env : Env) (method url : String) (fields : String → List (String × String))
    (st : ManagerState) : ManagerState :=
  let (userId, sess) := getUserId env st.session
  { st with session := sess,
            listRequests := st.listRequests ++
              [{ method := method, url := url, fields := fields userId }] }

/-- The request of the method `loadWhitelist` (popup.js, lines 608-650); the
rendering of the rows it fetches is not part of the model. -/
def loadWhitelist (env : Env) (st : ManagerState) : ManagerState :=
  sendListRequest env "GET" (st.session.apiUrl ++ "/whitelist")
    (fun userId => [("userId", userId)]) st

/-- The request of the method `loadBlacklist` (popup.js, lines 808-867); the
rendering of the rows it fetches is not part of the model. -/
def loadBlacklist (env : Env) (st : ManagerState) : ManagerState :=
  sendListRequest env "GET" (st.session.apiUrl ++ "/api/v1/blacklist")
    (fun userId => [("userId", userId)]) st

/-- The method `addToWhitelist` (popup.js, lines 544-582).  The method
`String.prototype.toLowerCase` belongs to the engine and is a parameter. -/
def addToWhitelist (toLowerCase : String → String) (env : Env) (out : ListFetch)
    (st : ManagerState) : ManagerState :=
  let domain := toLowerCase (jsTrim st.whitelistInput)
  if domain = "" then showWhitelistError "Please enter a domain" st
  else if !isValidDomain domain then
    showWhitelistError "Please enter a valid domain (e.g., example.com)" st
  else
    let st1 := sendListRequest env "POST" (st.session.apiUrl ++ "/whitelist")
      (fun userId => [("domain", domain), ("userId", userId)]) st
    match out with
    | .transportError => showWhitelistError "Failed to add domain" st1
    | .response status _ =>
      if responseOk status then
        showWhitelistSuccess "Domain added to whitelist"
          (loadWhitelist env { st1 with whitelistInput := "" })
      else showWhitelistError "Failed to add domain" st1

/-- The method `String.prototype.includes`. -/
def includesText (text part : String) : Bool :=
  text.toList.tails.any (fun t => part.toList.isPrefixOf t)

/-- The method `addToBlacklist` (popup.js, lines 731-777).  The method
`String.prototype.toLowerCase` belongs to the engine and is a parameter. -/
def addToBlacklist (toLowerCase : String → String) (env : Env) (out : ListFetch)
    (st : ManagerState) : ManagerState :=
  let domain := toLowerCase (jsTrim st.blacklistInput)
  if domain = "" then showBlacklistError "Please enter a domain" st
  else if !isValidDomain domain then showBlacklistError "Please enter a valid domain" st
  else
    let st1 := sendListRequest env "POST" (st.session.apiUrl ++ "/api/v1/blacklist")
      (fun userId => [("userId", userId), ("domain", domain)]) st
    match out with
    | .transportError => showBlacklistError "Failed to add domain to blacklist" st1
    | .response _ none => showBlacklistError "Failed to add domain to blacklist" st1
    | .response status (some message) =>
      if responseOk status then
        loadBlacklist env
          (showBlacklistSuccess ("\"" ++ domain ++ "\" added to blacklist")
            { st1 with blacklistInput := "" })
      else if includesText (orString message "") "already in blacklist" then
        showBlacklistError "Domain is already blacklisted" st1
      else showBlacklistError (orString message "Failed to add domain to blacklist") st1

/-! ## Template manager -/

/-- What `fetch(templateUrl)` yields: a rejected promise, or a response with
its `ok` flag and the text of its body, `none` when `response.text()` rejects. -/
inductive TemplateFetch where
  | transportError
  | response (ok : Bool) (text : Option String)
  deriving DecidableEq, Repr

/-- The state of a `TemplateManager`: its cache and the log of the template
resources it fetched (oldest first). -/
structure TemplateManager where
  templateCache : List (String × String)
  fetched : List String
  deriving DecidableEq, Repr

/-- The path given to `chrome.runtime.getURL` (templateManager.js, line 19). -/
def templatePath (templateName : String) : String :=
  "popup/templates/" ++ templateName ++ ".html"

/-- The method `loadTemplate` (templateManager.js, lines 12-36).  The cache maps
a name to a string, so `has(name)` followed by `get(name)` is one lookup. -/
def loadTemplate (out : TemplateFetch) (templateName : String) (tm : TemplateManager) :
    Except String String × TemplateManager :=
  match mapGet tm.templateCache templateName with
  | some body => (.ok body, tm)
  | none =>
    let tm1 := { tm with fetched := tm.fetched ++ [templatePath templateName] }
    match out with
    | .transportError => (.error "Failed to fetch", tm1)
    | .response ok text =>
      if ok then
        match text with
        | none => (.error "Failed to read the body", tm1)
        | some templateContent =>
          (.ok templateContent,
            { tm1 with templateCache := mapSet tm1.templateCache templateName templateContent })
      else (.error ("Failed to load template: " ++ templateName), tm1)

/-- The method `render` (templateManager.js, lines 44-47). -/
def render (out : TemplateFetch) (templateName : String) (data : List (String × String))
    (tm : TemplateManager) : Except String String × TemplateManager :=
  match loadTemplate out templateName tm with
  | (.ok template, tm1) => (.ok (interpolate template data), tm1)
  | (.error e, tm1) => (.error e, tm1)

/-- A child node of an element, as far as `firstElementChild` tells them
apart: an element with its markup, a text or a comment. -/
inductive DomNode where
  | element (markup : String)
  | text (content : String)
  | comment (content : String)
  deriving DecidableEq, Repr

/-- The property `firstElementChild`: the first child that is an element, or
`none` for `null`. -/
def firstElementChild : List DomNode → Option String
  | [] => none
  | .element markup :: _ => some markup
  | _ :: rest => firstElementChild rest

/-- The top-level elements of a list of child nodes. -/
def elementChildren : List DomNode → List String
  | [] => []
  | .element markup :: rest => markup :: elementChildren rest
  | _ :: rest => elementChildren rest

/-- The method `createElementFromTemplate` (templateManager.js, lines 67-72).
The HTML parser behind `innerHTML` belongs to the browser and is a parameter:
it gives the child nodes of `temp` after the assignment. -/
def createElementFromTemplate (parseHtml : String → List DomNode) (out : TemplateFetch)
    (templateName : String) (data : List (String × String)) (tm : TemplateManager) :
    Except String (Option String) × TemplateManager :=
  match render out templateName data tm with
  | (.ok html, tm1) => (.ok (firstElementChild (parseHtml (jsTrim html))), tm1)
  | (.error e, tm1) => (.error e, tm1)

/-- The method `replaceContent` (templateManager.js, lines 80-83): the new
inner markup of the container. -/
def replaceContent (out : TemplateFetch) (templateName : String) (data : List (String × String))
    (tm : TemplateManager) : Except String String × TemplateManager :=
  render out templateName data tm

/-- The method `clearCache` (templateManager.js, lines 88-90). -/
def clearCache (tm : TemplateManager) : TemplateManager :=
  { tm with templateCache := [] }

/-- A call of `loadTemplate` or of `render`, with what the network answers
during the call. -/
inductive TemplateOp where
  | load (templateName : String) (out : TemplateFetch)
  | render (templateName : String) (data : List (String × String)) (out : TemplateFetch)
  deriving DecidableEq, Repr

/-- The template manager after one call. -/
def runTemplateOp (op : TemplateOp) (tm : TemplateManager) : TemplateManager :=
  match op with
  | .load templateName out => (loadTemplate out templateName tm).2
  | .render templateName data out => (render out templateName data tm).2

/-- The template manager after a sequence of calls, first call first. -/
def runTemplateOps (ops : List TemplateOp) (tm : TemplateManager) : TemplateManager :=
  ops.foldl (fun t op => runTemplateOp op t) tm

/-! ## Views and their fallback markup -/

/-- The values of the `id` attributes of a markup text, in the order of the
text: the characters between ` id="` and the next `"`.  The first argument
counts characters still to be skipped, the second holds the characters of the
value being read, last character first. -/
def markupIds : Nat → Option (List Char) → List Char → List String
  | _, _, [] => []
  | k + 1, st, _ :: cs => markupIds k st cs
  | 0, some acc, c :: cs =>
    if c = '"' then String.mk acc.reverse :: markupIds 0 none cs
    else markupIds 0 (some (c :: acc)) cs
  | 0, none, c :: cs =>
    if (c :: cs).take 5 = [' ', 'i', 'd', '=', '"'] then markupIds 4 (some []) cs
    else markupIds 0 none cs

/-- The ids of the elements of a markup text. -/
def idsOf (markup : String) : List String :=
  markupIds 0 none markup.toList

/-- The calls `document.getElementById(id).addEventListener(...)` for the ids
in turn, on a document given by the ids of its elements: the call for an id
that no element has throws a `TypeError`, since `getElementById` gives `null`. -/
def addListeners (doc : List String) : List String → Except String Unit
  | [] => .ok ()
  | id :: rest =>
    if doc.contains id then addListeners doc rest
    else .error ("Cannot read properties of null (reading 'addEventListener'): " ++ id)

/-- The fallback markup of `showSettingsView` (popup.js, line 423). -/
def settingsFallback : String :=
  "<header class=\"settings-header\"><div class=\"header-content\"><button id=\"bac" ++
  "kBtn\" class=\"back-btn\"><svg viewBox=\"0 0 24 24\" width=\"16\" height=\"16\">" ++
  "<path fill=\"currentColor\" d=\"M20,11V13H8L13.5,18.5L12.08,19.92L4.16,12L12.08," ++
  "4.08L13.5,5.5L8,11H20Z\"/></svg></button><h1>Settings</h1></div></header><main c" ++
  "lass=\"settings-content\"><p>Settings view failed to load. Please reload the ext" ++
  "ension.</p></main>"

/-- The fallback markup of `showWhitelistManager` (popup.js, line 518). -/
def whitelistFallback : String :=
  "<header class=\"settings-header\"><div class=\"header-content\"><button id=\"bac" ++
  "kToSettingsBtn\" class=\"back-btn\"><svg viewBox=\"0 0 24 24\" width=\"16\" heig" ++
  "ht=\"16\"><path fill=\"currentColor\" d=\"M20,11V13H8L13.5,18.5L12.08,19.92L4.16" ++
  ",12L12.08,4.08L13.5,5.5L8,11H20Z\"/></svg></button><h1>Whitelist Management</h1>" ++
  "</div></header><main class=\"settings-content\"><p>Whitelist view failed to load" ++
  ". Please reload the extension.</p></main>"

/-- The fallback markup of `showBlacklistManager` (popup.js, line 705). -/
def blacklistFallback : String :=
  "<header class=\"settings-header\"><div class=\"header-content\"><button id=\"bac" ++
  "kToSettingsBtn\" class=\"back-btn\"><svg viewBox=\"0 0 24 24\" width=\"16\" heig" ++
  "ht=\"16\"><path fill=\"currentColor\" d=\"M20,11V13H8L13.5,18.5L12.08,19.92L4.16" ++
  ",12L12.08,4.08L13.5,5.5L8,11H20Z\"/></svg></button><h1>Blacklist Management</h1>" ++
  "</div></header><main class=\"settings-content\"><p>Blacklist view failed to load" ++
  ". Please reload the extension.</p></main>"

/-- The fallback markup of `showHistoryView` (popup.js, line 908). -/
def historyFallback : String :=
  "<header class=\"settings-header history-header\"><div class=\"header-content\"><" ++
  "button id=\"backBtn\" class=\"back-btn\"><svg viewBox=\"0 0 24 24\" width=\"16\"" ++
  " height=\"16\"><path fill=\"currentColor\" d=\"M20,11V13H8L13.5,18.5L12.08,19.92" ++
  "L4.16,12L12.08,4.08L13.5,5.5L8,11H20Z\"/></svg></button><div class=\"page-title\"" ++
  "><h1>ðŸ“Š Scan History</h1><p>View and export your URL analysis history</p></div" ++
  "></div></header><main class=\"settings-content history-content\"><p>History view" ++
  " failed to load. Please reload the extension.</p></main>"

/-- The lookups without a null guard of `setupSettingsListeners` (popup.js,
lines 430-506), in the order of the calls.  The lookups of `themeSelector` are
guarded, `querySelectorAll` cannot fail, and the callback of the storage read
runs later. -/
def setupSettingsListeners (doc : List String) : Except String Unit :=
  addListeners doc ["backBtn", "detectionSensitivity", "realTimeProtection", "autoBlockThreats"]

/-- The lookups of `setupWhitelistListeners` (popup.js, lines 525-542). -/
def setupWhitelistListeners (doc : List String) : Except String Unit :=
  addListeners doc ["backToSettingsBtn", "addWhitelistBtn", "whitelistInput"]

/-- The lookups of `setupBlacklistListeners` (popup.js, lines 712-729). -/
def setupBlacklistListeners (doc : List String) : Except String Unit :=
  addListeners doc ["backToSettingsBtn", "addBlacklistBtn", "blacklistInput"]

/-- The lookups of `setupHistoryListeners` (popup.js, lines 934-958). -/
def setupHistoryListeners (doc : List String) : Except String Unit :=
  addListeners doc
    ["backBtn", "filterType", "limitResults", "exportCsvBtn", "exportJsonBtn", "clearHistoryBtn"]

/-- The common part of the four methods that show a view: the content of the
container is replaced by the rendered template or, when that fails, by the
fallback markup, and the listeners are wired on the document, given by the
ids `outside` of the elements outside the container and the ids of the new
content. -/
def showView (templateName fallback : String) (setup : List String → Except String Unit)
    (out : TemplateFetch) (outside : List String) (tm : TemplateManager) :
    Except String Unit × TemplateManager :=
  match replaceContent out templateName [] tm with
  | (.ok html, tm1) => (setup (outside ++ idsOf html), tm1)
  | (.error _, tm1) => (setup (outside ++ idsOf fallback), tm1)

/-- The method `showSettingsView` (popup.js, lines 413-428). -/
def showSettingsView (out : TemplateFetch) (outside : List String) (tm : TemplateManager) :
    Except String Unit × TemplateManager :=
  showView "settings-view" settingsFallback setupSettingsListeners out outside tm

/-- The method `showWhitelistManager` (popup.js, lines 508-523), up to the
wiring of the listeners. -/
def showWhitelistManager (out : TemplateFetch) (outside : List String) (tm : TemplateManager) :
    Except String Unit × TemplateManager :=
  showView "whitelist-manager" whitelistFallback setupWhitelistListeners out outside tm

/-- The method `showBlacklistManager` (popup.js, lines 695-710), up to the
wiring of the listeners. -/
def showBlacklistManager (out : TemplateFetch) (outside : List String) (tm : TemplateManager) :
    Except String Unit × TemplateManager :=
  showView "blacklist-manager" blacklistFallback setupBlacklistListeners out outside tm

/-- The method `showHistoryView` (popup.js, lines 895-914), up to the wiring of
the listeners. -/
def showHistoryView (out : TemplateFetch) (outside : List String) (tm : TemplateManager) :
    Except String Unit × TemplateManager :=
  showView "history-view" historyFallback setupHistoryListeners out outside tm

/-! ## History view -/

/-- The method `getHistoryRiskClass` (popup.js, lines 1076-1080). -/
def getHistoryRiskClass (riskScore : Int) : String :=
  if riskScore < 30 then "risk-low"
  else if riskScore < 70 then "risk-medium"
  else "risk-high"

/-- The method `truncateHistoryUrl` (popup.js, lines 1082-1085).  A character
of the model stands for a UTF-16 code unit of the JavaScript string; a
`maxLength` below 3 makes `substring` start and end at 0, as the subtraction
of natural numbers does. -/
def truncateHistoryUrl (url : String) (maxLength : Nat) : String :=
  if url.length ≤ maxLength then url
  else String.mk (url.toList.take (maxLength - 3)) ++ "..."

/-- The expression `(analysis.confidence * 100).toFixed(0)` (popup.js, line
1032) for an integer confidence; an absent confidence gives `NaN`. -/
def historyConfidence (confidence : Option Int) : String :=
  match confidence with
  | some c => toString (c * 100)
  | none => "NaN"

/-- A record of the history list, as far as `displayHistoryItems` reads it. -/
structure HistoryRecord where
  url : String
  createdAt : String
  analysis : AnalysisResult
  deriving DecidableEq, Repr

/-- The data object that `displayHistoryItems` gives to the template
`history-item` for one record (popup.js, lines 1026-1043).  The method
`toLocaleString` of `Date` depends on the locale and is a parameter. -/
def historyItemData (toLocaleString : String → String) (r : HistoryRecord) :
    List (String × String) :=
  [("statusClass", if r.analysis.isPhishing then "status-threat" else "status-safe"),
   ("statusIcon", if r.analysis.isPhishing then "ðŸš¨" else "âœ…"),
   ("statusText", if r.analysis.isPhishing then "Threat" else "Safe"),
   ("date", toLocaleString r.createdAt),
   ("displayUrl", truncateHistoryUrl r.url 45),
   ("riskClass", getHistoryRiskClass r.analysis.riskScore),
   ("riskScore", toString r.analysis.riskScore),
   ("confidence", historyConfidence r.analysis.confidence)]

/-! ## Words of the claims about the analysis flow -/

/-- The analyze request failed: a transport error or a status outside 200-299. -/
def requestFailed (o : FetchOutcome) : Bool :=
  match o with
  | .transportError => true
  | .response status _ => !responseOk status

/-- No counter of the first statistics is larger than in the second. -/
def Stats.le (a b : Stats) : Prop :=
  a.totalChecks ≤ b.totalChecks ∧ a.threatsBlocked ≤ b.threatsBlocked ∧ a.safeUrls ≤ b.safeUrls

/-- The invariant of the counters: the threats and the safe URLs are among
the checks. -/
def StatsInvariant (st : Stats) : Prop :=
  st.threatsBlocked + st.safeUrls ≤ st.totalChecks

/-- The session after a sequence of calls of `updateStats`, first call first. -/
def applyUpdates (calls : List (Env × AnalysisResult)) (s : Session) : Session :=
  calls.foldl (fun t call => updateStats call.1 call.2 t) s

/-- The session after a sequence of calls of `getUserId`, first call first. -/
def applyGetUserId (envs : List Env) (s : Session) : Session :=
  envs.foldl (fun t env => (getUserId env t).2) s

/-- A step of a popup session that touches the state of the controller: a
call of `analyzeUrl`, a text typed into the URL input followed by
`analyzeManualUrl`, or a call of `getUserId`, which is all that the list and
history managers do to that state. -/
inductive SessionOp where
  | analyze (url : String) (env : Env)
  | manual (parseUrl : String → Option ParsedUrl) (text : String) (env : Env)
  | userId (env : Env)

/-- The session after one step. -/
def runSessionOp (op : SessionOp) (s : Session) : Session :=
  match op with
  | .analyze url env => (analyzeUrl env url s).2
  | .manual parseUrl text env =>
    analyzeManualUrl parseUrl env { s with view := { s.view with urlInput := text } }
  | .userId env => (getUserId env s).2

/-- The session after a sequence of steps, first step first. -/
def runSessionOps (ops : List SessionOp) (s : Session) : Session :=
  ops.foldl (fun t op => runSessionOp op t) s

/-- An environment in which the service answers with the given status and no
usable body. -/
def statusEnv (status : Nat) : Env :=
  { fetchOutcome := .response status .unparseable,
    freshUserId := "00000000-0000-4000-8000-000000000000", statsWriteFails := false,
    randomConfidence := 90 }

/-- A URL constructor that parses `https://evil.test` and throws on every
other string, for the examples. -/
def evilParseUrl (str : String) : Option ParsedUrl :=
  if str = "https://evil.test" then
    some { protocol := "https:", hostname := "evil.test", pathname := "/" }
  else none

/-- The phishing result of the end-to-end example of the specification. -/
def blacklistMatchResult : AnalysisResult :=
  { isPhishing := true, riskScore := 95, confidence := none,
    threats := some ["blacklist match"], description := none, recommendation := none }

/-- A session with `https://evil.test` typed in and a threat list left by an
earlier analysis. -/
def staleSession : Session :=
  { newSession with
    view := { blankView with urlInput := "https://evil.test", threatList := ["old", "older"] } }

/-- The list managers on the new session, with a text typed into both input
fields. -/
def typedManager (text : String) : ManagerState :=
  { session := newSession, listRequests := [], whitelistInput := text, whitelistMessages := [],
    blacklistInput := text, blacklistMessages := [] }

/-- The method `toLowerCase` on ASCII text, for the examples. -/
def asciiLowerCase (s : String) : String :=
  String.mk (s.toList.map Char.toLower)

/-- A template manager that has fetched nothing yet. -/
def newTemplateManager : TemplateManager :=
  { templateCache := [], fetched := [] }

/-- An HTML parser that knows three markup texts, for the examples: two
paragraphs, one paragraph, and the empty text. -/
def exampleParseHtml (html : String) : List DomNode :=
  if html = "<p>a</p><p>b</p>" then [.element "<p>a</p>", .element "<p>b</p>"]
  else if html = "<p>a</p>" then [.element "<p>a</p>"]
  else if html = "" then []
  else [.text html]

/-- A template manager whose cache holds a template with two top-level
elements, one with a single element and an empty one. -/
def exampleTemplateManager : TemplateManager :=
  { templateCache := [("pair", "<p>a</p><p>b</p>"), ("single", " <p>a</p>\n"), ("blank", "")],
    fetched := [] }

/-- A result that is not phishing, with risk score 10 and confidence 93. -/
def confidentResult : AnalysisResult :=
  { isPhishing := false, riskScore := 10, confidence := some 93, threats := none,
    description := none, recommendation := none }

/-- The history record of `confidentResult`. -/
def confidentRecord : HistoryRecord :=
  { url := "http://example.com", createdAt := "2024-01-01T00:00:00Z",
    analysis := confidentResult }

/-! # Theorems

## The analysis cache -/

theorem mapHas_cons {α : Type} (e : String × α) (m : List (String × α)) (k : String) :
    mapHas (e :: m) k = (decide (e.1 = k) || mapHas m k) := by
  by_cases he : e.1 = k <;> simp [mapHas, he]

theorem mapGet_cons {α : Type} (e : String × α) (m : List (String × α)) (k : String) :
    mapGet (e :: m) k = if e.1 = k then some e.2 else mapGet m k := by
  by_cases he : e.1 = k
  · simp [mapGet, List.find?_cons, he]
  · have hb : (e.1 == k) = false := by simpa using he
    simp [mapGet, List.find?_cons, he, hb]

theorem mapGet_isSome_of_mapHas {α : Type} (m : List (String × α)) (k : String)
    (h : mapHas m k = true) : ∃ v, mapGet m k = some v := by
  induction m with
  | nil => simp [mapHas] at h
  | cons e m ih =>
    rw [mapGet_cons]
    by_cases he : e.1 = k
    · exact ⟨e.2, by rw [if_pos he]⟩
    · rw [if_neg he]
      apply ih
      rw [mapHas_cons] at h
      simpa [he] using h

theorem mapGet_eq_none_of_not_mapHas {α : Type} (m : List (String × α)) (k : String)
    (h : mapHas m k = false) : mapGet m k = none := by
  induction m with
  | nil => rfl
  | cons e m ih =>
    rw [mapHas_cons] at h
    simp only [Bool.or_eq_false_iff, decide_eq_false_iff_not] at h
    rw [mapGet_cons, if_neg h.1]
    exact ih h.2

theorem mapHas_mapSet {α : Type} (m : List (String × α)) (k : String) (v : α) :
    mapHas (mapSet m k v) k = true := by
  unfold mapSet
  split
  · rename_i h
    simp only [mapHas, List.any_eq_true, List.mem_map] at h ⊢
    obtain ⟨e, he, hk⟩ := h
    exact ⟨(k, v), ⟨e, he, by simp [hk]⟩, by simp⟩
  · simp [mapHas]

theorem mapGet_map_set {α : Type} (m : List (String × α)) (k : String) (v : α)
    (h : mapHas m k = true) :
    mapGet (m.map (fun e => if (e.1 == k) = true then (k, v) else e)) k = some v := by
  induction m with
  | nil => simp [mapHas] at h
  | cons e m ih =>
    rw [List.map_cons, mapGet_cons]
    by_cases he : e.1 = k
    · simp [he]
    · have hb : (e.1 == k) = false := by simpa using he
      rw [mapHas_cons] at h
      simp only [hb, he, if_false, Bool.false_eq_true]
      apply ih
      simpa [he] using h

theorem mapGet_append_new {α : Type} (m : List (String × α)) (k : String) (v : α)
    (h : mapHas m k = false) : mapGet (m ++ [(k, v)]) k = some v := by
  induction m with
  | nil => simp [mapGet_cons, mapGet]
  | cons e m ih =>
    rw [mapHas_cons] at h
    simp only [Bool.or_eq_false_iff, decide_eq_false_iff_not] at h
    rw [List.cons_append, mapGet_cons, if_neg h.1]
    exact ih h.2

theorem mapGet_mapSet {α : Type} (m : List (String × α)) (k : String) (v : α) :
    mapGet (mapSet m k v) k = some v := by
  unfold mapSet
  by_cases h : mapHas m k = true
  · rw [if_pos h]
    exact mapGet_map_set m k v h
  · rw [if_neg h]
    exact mapGet_append_new m k v (by simpa using h)

theorem mem_of_mapGet {α : Type} (m : List (String × α)) (k : String) (v : α)
    (h : mapGet m k = some v) : ∃ e ∈ m, e.2 = v := by
  induction m with
  | nil => simp [mapGet] at h
  | cons e m ih =>
    rw [mapGet_cons] at h
    by_cases he : e.1 = k
    · rw [if_pos he] at h
      exact ⟨e, List.mem_cons_self _ _, by simpa using h⟩
    · rw [if_neg he] at h
      obtain ⟨e', he', hv⟩ := ih h
      exact ⟨e', List.mem_cons_of_mem _ he', hv⟩

theorem mapHas_of_mapGet {α : Type} (m : List (String × α)) (k : String) (v : α)
    (h : mapGet m k = some v) : mapHas m k = true := by
  by_contra hc
  rw [mapGet_eq_none_of_not_mapHas m k (by simpa using hc)] at h
  simp at h

theorem updateStats_analysisCache (env : Env) (r : AnalysisResult) (s : Session) :
    (updateStats env r s).analysisCache = s.analysisCache := by
  unfold updateStats updateStatsDisplay saveStats
  split <;> rfl

theorem updateStats_requests (env : Env) (r : AnalysisResult) (s : Session) :
    (updateStats env r s).requests = s.requests := by
  unfold updateStats updateStatsDisplay saveStats
  split <;> rfl

theorem updateStats_stats (env : Env) (r : AnalysisResult) (s : Session) :
    (updateStats env r s).stats = bumpStats r s.stats := by
  unfold updateStats updateStatsDisplay saveStats
  split <;> rfl

/-! ## Risk level -/

/-- C1. For every integer score from 0 to 100, `getRiskLevel` is `safe` below 30,
`warning` from 30 to 69 and `danger` from 70 on. -/
theorem getRiskLevel_thresholds (score : Int) (h0 : 0 ≤ score) (h100 : score ≤ 100) :
    (score < 30 → getRiskLevel score = "safe") ∧
    (30 ≤ score → score < 70 → getRiskLevel score = "warning") ∧
    (70 ≤ score → getRiskLevel score = "danger") := by
  unfold getRiskLevel
  refine ⟨fun h => ?_, fun h1 h2 => ?_, fun h => ?_⟩
  · rw [if_neg (by omega), if_neg (by omega)]
  · rw [if_neg (by omega), if_pos (by omega)]
  · rw [if_pos (by omega)]

/-- The thresholds of C1 at the scores 29, 30 and 70. -/
theorem getRiskLevel_thresholds_witness :
    getRiskLevel 29 = "safe" ∧ getRiskLevel 30 = "warning" ∧ getRiskLevel 70 = "danger" :=
  ⟨(getRiskLevel_thresholds 29 (by decide) (by decide)).1 (by decide),
   (getRiskLevel_thresholds 30 (by decide) (by decide)).2.1 (by decide) (by decide),
   (getRiskLevel_thresholds 70 (by decide) (by decide)).2.2 (by decide)⟩

/-! ## Cache hits -/

/-- C2. When the analysis cache holds an entry for `url`, `analyzeUrl` returns
exactly the cached result and adds no request to the log of network requests. -/
theorem analyzeUrl_cache_hit (env : Env) (url : String) (s : Session)
    (h : mapHas s.analysisCache url = true) :
    ∃ r, mapGet s.analysisCache url = some r ∧
      (analyzeUrl env url s).1 = .ok r ∧
      (analyzeUrl env url s).2.requests = s.requests := by
  obtain ⟨r, hr⟩ := mapGet_isSome_of_mapHas _ _ h
  refine ⟨r, hr, ?_, ?_⟩ <;> simp [analyzeUrl, hr]

/-- The conclusion of C2 in a session whose cache holds `http://example.com`,
while offline. -/
theorem analyzeUrl_cache_hit_witness :
    ∃ r, mapGet [("http://example.com", plainResult false 10)] "http://example.com" = some r ∧
      (analyzeUrl offlineEnv "http://example.com"
        { newSession with analysisCache := [("http://example.com", plainResult false 10)] }).1
          = .ok r ∧
      (analyzeUrl offlineEnv "http://example.com"
        { newSession with analysisCache := [("http://example.com", plainResult false 10)] }).2.requests
          = [] :=
  analyzeUrl_cache_hit offlineEnv "http://example.com"
    { newSession with analysisCache := [("http://example.com", plainResult false 10)] } (by decide)

theorem analyzeUrl_of_cached (env : Env) (url : String) (s : Session) (r : AnalysisResult)
    (hr : mapGet s.analysisCache url = some r) :
    analyzeUrl env url s = (.ok r, s) := by
  simp [analyzeUrl, hr]

theorem getUserId_analysisCache (env : Env) (s : Session) :
    (getUserId env s).2.analysisCache = s.analysisCache := by
  unfold getUserId
  split
  · split <;> rfl
  · rfl

theorem analyzeTry_ok_cached (env : Env) (url : String) (s : Session) (r : AnalysisResult)
    (h : (analyzeTry env url s).1 = .ok r) :
    mapHas (analyzeTry env url s).2.analysisCache url = true ∧
      mapGet (analyzeTry env url s).2.analysisCache url = some r := by
  unfold analyzeTry at h ⊢
  cases hf : env.fetchOutcome with
  | transportError => simp [hf] at h
  | response status body =>
    simp only [hf] at h ⊢
    by_cases hok : responseOk status = true
    · simp only [hok, if_true] at h ⊢
      cases body with
      | unparseable => simp at h
      | value result =>
        simp only [Except.ok.injEq] at h
        subst h
        simp only [updateStats_analysisCache]
        exact ⟨mapHas_mapSet _ _ _, mapGet_mapSet _ _ _⟩
    · simp [hok] at h

theorem analyzeUrl_ok_cached (env : Env) (url : String) (s : Session) (r : AnalysisResult)
    (h : (analyzeUrl env url s).1 = .ok r) :
    mapHas (analyzeUrl env url s).2.analysisCache url = true ∧
      mapGet (analyzeUrl env url s).2.analysisCache url = some r := by
  cases hc : mapGet s.analysisCache url with
  | some r' =>
    rw [analyzeUrl_of_cached env url s r' hc] at h ⊢
    simp only [Except.ok.injEq] at h
    subst h
    exact ⟨mapHas_of_mapGet _ _ _ hc, hc⟩
  | none =>
    unfold analyzeUrl at h ⊢
    simp only [hc] at h ⊢
    generalize hs2 : ({ (getUserId env s).2 with
      requests := (getUserId env s).2.requests ++
        [{ endpoint := s.apiUrl ++ "/analyze", url := url,
           sensitivity := sensitivityOf (getSettings s),
           userId := (getUserId env s).1 }] } : Session) = s2 at h ⊢
    have key := analyzeTry_ok_cached env url s2 r
    rcases ht : analyzeTry env url s2 with ⟨res, s3⟩
    rw [ht] at h key
    cases res with
    | error e => simp at h
    | ok r' =>
      simp only [Except.ok.injEq] at h
      subst h
      exact key rfl

/-- C3, as stated, fails: after a first call whose request failed, the same
URL is not cached and the second call sends a request of its own. -/
theorem analyzeUrl_repeat_after_failure_requests :
    (analyzeUrl offlineEnv "http://example.com" newSession).2.requests.length = 1 ∧
    (analyzeUrl offlineEnv "http://example.com"
      (analyzeUrl offlineEnv "http://example.com" newSession).2).2.requests.length = 2 := by
  decide

/-! ## Statistics -/

/-- C4. `updateStats` adds one to `totalChecks` always, one to `threatsBlocked`
exactly when the result is phishing, and one to `safeUrls` exactly when the
result is not phishing and its risk score is below 30; a counter is otherwise
unchanged. -/
theorem updateStats_counters (env : Env) (result : AnalysisResult) (s : Session) :
    (updateStats env result s).stats.totalChecks = s.stats.totalChecks + 1 ∧
    (updateStats env result s).stats.threatsBlocked
      = s.stats.threatsBlocked + (if result.isPhishing = true then 1 else 0) ∧
    (updateStats env result s).stats.safeUrls
      = s.stats.safeUrls + (if result.isPhishing = false ∧ result.riskScore < 30 then 1 else 0) := by
  rw [updateStats_stats]
  unfold bumpStats
  by_cases hp : result.isPhishing = true
  · simp [hp]
  · by_cases hr : result.riskScore < 30
    · simp [hp, hr]
    · simp [hp, hr]

/-! ## Manual analysis -/

theorem updateStats_inputErrors (env : Env) (r : AnalysisResult) (s : Session) :
    (updateStats env r s).view.inputErrors = s.view.inputErrors := by
  unfold updateStats updateStatsDisplay saveStats
  split <;> rfl

theorem analyzeTry_inputErrors (env : Env) (url : String) (s : Session) :
    (analyzeTry env url s).2.view.inputErrors = s.view.inputErrors := by
  unfold analyzeTry
  cases env.fetchOutcome with
  | transportError => rfl
  | response status body =>
    by_cases hok : responseOk status = true
    · cases body with
      | unparseable => simp [hok]
      | value result => simp [hok, updateStats_inputErrors]
    · simp [hok]

theorem getUserId_view (env : Env) (s : Session) : (getUserId env s).2.view = s.view := by
  unfold getUserId
  split
  · split <;> rfl
  · rfl

theorem analyzeUrl_inputErrors (env : Env) (url : String) (s : Session) :
    (analyzeUrl env url s).2.view.inputErrors = s.view.inputErrors := by
  cases hc : mapGet s.analysisCache url with
  | some r => rw [analyzeUrl_of_cached env url s r hc]
  | none =>
    unfold analyzeUrl
    simp only [hc]
    generalize hs2 : ({ (getUserId env s).2 with
      requests := (getUserId env s).2.requests ++
        [{ endpoint := s.apiUrl ++ "/analyze", url := url,
           sensitivity := sensitivityOf (getSettings s),
           userId := (getUserId env s).1 }] } : Session) = s2
    have hv : s2.view = s.view := by rw [← hs2]; exact getUserId_view env s
    have key := analyzeTry_inputErrors env url s2
    rcases ht : analyzeTry env url s2 with ⟨res, s3⟩
    rw [ht] at key
    cases res with
    | error e => simpa [hv] using key
    | ok r => simpa [hv] using key

/-- C10. `analyzeManualUrl` classifies the raw input in this order: when it is
empty after trimming, the call reports `Please enter a URL` and does nothing
else; otherwise, when `isValidHttpUrl` rejects it, the call reports
`Please enter a valid URL` and does nothing else; only otherwise the call goes
on to `analyzeUrl` with the trimmed input: the requests, the cache and the
counters are those `analyzeUrl` leaves, and neither validation message is
reported.  `isValidHttpUrl` is true exactly for the strings that the URL
constructor parses to a URL whose protocol is `http:` or `https:`. -/
theorem analyzeManualUrl_classification (parseUrl : String → Option ParsedUrl) (env : Env)
    (s : Session) :
    (jsTrim s.view.urlInput = "" →
      analyzeManualUrl parseUrl env s = showInputError "Please enter a URL" s) ∧
    (jsTrim s.view.urlInput ≠ "" → isValidHttpUrl parseUrl (jsTrim s.view.urlInput) = false →
      analyzeManualUrl parseUrl env s = showInputError "Please enter a valid URL" s) ∧
    (jsTrim s.view.urlInput ≠ "" → isValidHttpUrl parseUrl (jsTrim s.view.urlInput) = true →
      (analyzeManualUrl parseUrl env s).requests =
        (analyzeUrl env (jsTrim s.view.urlInput) (setAnalyzeButtonLoading true s)).2.requests ∧
      (analyzeManualUrl parseUrl env s).analysisCache =
        (analyzeUrl env (jsTrim s.view.urlInput) (setAnalyzeButtonLoading true s)).2.analysisCache ∧
      (analyzeManualUrl parseUrl env s).stats =
        (analyzeUrl env (jsTrim s.view.urlInput) (setAnalyzeButtonLoading true s)).2.stats ∧
      (analyzeManualUrl parseUrl env s).view.inputErrors =
        s.view.inputErrors ++
          (match (analyzeUrl env (jsTrim s.view.urlInput) (setAnalyzeButtonLoading true s)).1 with
           | .ok _ => []
           | .error _ => ["Analysis failed. Please try again."])) ∧
    (∀ str : String, isValidHttpUrl parseUrl str = true ↔
      ∃ u, parseUrl str = some u ∧ (u.protocol = "http:" ∨ u.protocol = "https:")) := by
  refine ⟨fun h => ?_, fun h1 h2 => ?_, fun h1 h2 => ?_, fun str => ?_⟩
  · simp [analyzeManualUrl, h]
  · simp [analyzeManualUrl, h1, h2]
  · have hie := analyzeUrl_inputErrors env (jsTrim s.view.urlInput) (setAnalyzeButtonLoading true s)
    simp only [analyzeManualUrl, h1, h2, if_false, Bool.not_true, Bool.false_eq_true]
    rcases ht : analyzeUrl env (jsTrim s.view.urlInput) (setAnalyzeButtonLoading true s)
      with ⟨res, s1⟩
    rw [ht] at hie
    have hs : (setAnalyzeButtonLoading true s).view.inputErrors = s.view.inputErrors := rfl
    rw [hs] at hie
    cases res with
    | error e =>
      refine ⟨rfl, rfl, rfl, ?_⟩
      show (s1.view.inputErrors ++ _) = _
      rw [hie]
    | ok r =>
      refine ⟨rfl, rfl, rfl, ?_⟩
      show s1.view.inputErrors = _
      rw [hie]; simp
  · unfold isValidHttpUrl
    cases parseUrl str with
    | none => simp
    | some u => simp

/-- The three cases of C10 for `exampleParseUrl`: blank input, an `ftp:` URL,
and `http://example.com` between blanks. -/
theorem analyzeManualUrl_classification_witness :
    analyzeManualUrl exampleParseUrl offlineEnv (typedSession "  ")
      = showInputError "Please enter a URL" (typedSession "  ") ∧
    analyzeManualUrl exampleParseUrl offlineEnv (typedSession "ftp://example.com")
      = showInputError "Please enter a valid URL" (typedSession "ftp://example.com") ∧
    (analyzeManualUrl exampleParseUrl offlineEnv (typedSession " http://example.com ")).requests
      = (analyzeUrl offlineEnv "http://example.com"
          (setAnalyzeButtonLoading true (typedSession " http://example.com "))).2.requests :=
  ⟨(analyzeManualUrl_classification exampleParseUrl offlineEnv (typedSession "  ")).1
      (by decide),
   (analyzeManualUrl_classification exampleParseUrl offlineEnv
      (typedSession "ftp://example.com")).2.1 (by decide) (by decide),
   ((analyzeManualUrl_classification exampleParseUrl offlineEnv
      (typedSession " http://example.com ")).2.2.1 (by decide) (by decide)).1⟩

/-! ## Template interpolation -/

theorem isWordChar_lbrace : isWordChar '{' = false := by decide

theorem isWordChar_rbrace : isWordChar '}' = false := by decide

theorem takeWhile_word_append (key rest : List Char) (c : Char)
    (hkey : ∀ x ∈ key, isWordChar x = true) (hc : isWordChar c = false) :
    (key ++ c :: rest).takeWhile isWordChar = key := by
  induction key with
  | nil => simp [List.takeWhile, hc]
  | cons a key ih =>
    have ha : isWordChar a = true := hkey a (List.mem_cons_self _ _)
    simp only [List.cons_append, List.takeWhile_cons, ha, if_true]
    rw [ih (fun x hx => hkey x (List.mem_cons_of_mem _ hx))]

theorem dropWhile_word_append (key rest : List Char) (c : Char)
    (hkey : ∀ x ∈ key, isWordChar x = true) (hc : isWordChar c = false) :
    (key ++ c :: rest).dropWhile isWordChar = c :: rest := by
  induction key with
  | nil => simp [List.dropWhile, hc]
  | cons a key ih =>
    have ha : isWordChar a = true := hkey a (List.mem_cons_self _ _)
    simp only [List.cons_append, List.dropWhile_cons, ha, if_true]
    rw [ih (fun x hx => hkey x (List.mem_cons_of_mem _ hx))]

theorem matchPlaceholder_text (key post : List Char) (hne : key ≠ [])
    (hkey : ∀ x ∈ key, isWordChar x = true) :
    matchPlaceholder (placeholderText key ++ post) = some key := by
  have h1 : placeholderText key ++ post = '{' :: '{' :: (key ++ '}' :: '}' :: post) := by
    simp [placeholderText]
  rw [h1]
  simp only [matchPlaceholder, and_self, if_true]
  rw [takeWhile_word_append key _ '}' hkey isWordChar_rbrace,
    dropWhile_word_append key _ '}' hkey isWordChar_rbrace]
  simp [hne]

/-- A match is the text `{{key}}` at the start of the scanned text. -/
theorem matchPlaceholder_some (l key : List Char) (h : matchPlaceholder l = some key) :
    key ≠ [] ∧ (∀ x ∈ key, isWordChar x = true) ∧
      l = placeholderText key ++ l.drop (key.length + 4) := by
  match l, h with
  | a :: b :: cs, h =>
    simp only [matchPlaceholder] at h
    split at h
    · rename_i hab
      split at h
      · rename_i hk
        simp only [Option.some.injEq] at h
        obtain ⟨ha, hb⟩ := hab
        subst ha hb
        refine ⟨by rw [← h]; exact hk.1, ?_, ?_⟩
        · intro x hx
          rw [← h] at hx
          exact (List.mem_takeWhile_imp hx)
        · have hsplit := List.takeWhile_append_dropWhile isWordChar cs
          have hd : cs.dropWhile isWordChar
              = '}' :: '}' :: (cs.dropWhile isWordChar).drop 2 := by
            have h2 := hk.2
            generalize cs.dropWhile isWordChar = d at h2 ⊢
            match d, h2 with
            | x :: y :: d', h2 =>
              simp only [List.take_succ_cons, List.take_zero, List.cons.injEq, and_true] at h2
              simp [h2.1, h2.2]
          have hcs : cs = key ++ '}' :: '}' :: (cs.dropWhile isWordChar).drop 2 := by
            conv_lhs => rw [← hsplit, hd, h]
          have hdrop : (('{' :: '{' :: cs).drop (key.length + 4))
              = (cs.dropWhile isWordChar).drop 2 := by
            conv_lhs => rw [hcs]
            have : key.length + 4 = (('{' :: '{' :: key) ++ ['}', '}']).length := by simp
            rw [this]
            have e : '{' :: '{' :: (key ++ '}' :: '}' :: List.drop 2 (List.dropWhile isWordChar cs))
              = (('{' :: '{' :: key) ++ ['}', '}']) ++ List.drop 2 (List.dropWhile isWordChar cs) := by
              simp
            rw [e, List.drop_left]
          rw [hdrop]
          conv_lhs => rw [hcs]
          simp [placeholderText]
      · simp at h
    · simp at h

theorem matchPlaceholder_length (l key : List Char) (h : matchPlaceholder l = some key) :
    key.length + 4 ≤ l.length := by
  have h3 := (matchPlaceholder_some l key h).2.2
  have := congrArg List.length h3
  simp only [List.length_append, placeholderText, List.length_cons, List.length_nil] at this
  omega

theorem takeWhile_append_stop (p : Char → Bool) (cs rest : List Char) (x : Char)
    (hx : p x = false) : (cs ++ x :: rest).takeWhile p = cs.takeWhile p := by
  induction cs with
  | nil => simp [List.takeWhile, hx]
  | cons a cs ih =>
    simp only [List.cons_append, List.takeWhile_cons]
    split
    · rw [ih]
    · rfl

theorem dropWhile_append_stop (p : Char → Bool) (cs rest : List Char) (x : Char)
    (hx : p x = false) : (cs ++ x :: rest).dropWhile p = cs.dropWhile p ++ x :: rest := by
  induction cs with
  | nil => simp [List.dropWhile, hx]
  | cons a cs ih =>
    simp only [List.cons_append, List.dropWhile_cons]
    split
    · rw [ih]
    · rfl

theorem take_two_append_braces (d rest : List Char) :
    (d ++ '{' :: '{' :: rest).take 2 = ['}', '}'] ↔ d.take 2 = ['}', '}'] := by
  match d with
  | [] => simp
  | [x] => simp
  | x :: y :: d' => simp

/-- A match that starts before an opening `{{` ends before it. -/
theorem matchPlaceholder_append_open (pre rest : List Char) (hne : pre ≠ []) :
    matchPlaceholder (pre ++ '{' :: '{' :: rest) = matchPlaceholder pre := by
  match pre, hne with
  | [a], _ =>
    simp [matchPlaceholder, List.takeWhile, isWordChar_lbrace]
  | a :: b :: cs, _ =>
    simp only [List.cons_append, matchPlaceholder]
    rw [takeWhile_append_stop isWordChar cs _ '{' isWordChar_lbrace,
      dropWhile_append_stop isWordChar cs _ '{' isWordChar_lbrace]
    simp only [take_two_append_braces]

theorem replacePlaceholders_nil (f : List Char → List Char → List Char) (k : Nat) :
    replacePlaceholders f k [] = [] := by
  cases k <;> rfl

theorem replacePlaceholders_succ (f : List Char → List Char → List Char) (k : Nat) (c : Char)
    (cs : List Char) : replacePlaceholders f (k + 1) (c :: cs) = replacePlaceholders f k cs := rfl

theorem replacePlaceholders_some (f : List Char → List Char → List Char) (c : Char)
    (cs key : List Char) (h : matchPlaceholder (c :: cs) = some key) :
    replacePlaceholders f 0 (c :: cs)
      = f (placeholderText key) key ++ replacePlaceholders f (key.length + 3) cs := by
  rw [replacePlaceholders, h]

theorem replacePlaceholders_none (f : List Char → List Char → List Char) (c : Char)
    (cs : List Char) (h : matchPlaceholder (c :: cs) = none) :
    replacePlaceholders f 0 (c :: cs) = c :: replacePlaceholders f 0 cs := by
  rw [replacePlaceholders, h]

theorem replacePlaceholders_append_open (f : List Char → List Char → List Char)
    (pre rest : List Char) (k : Nat) (hk : k ≤ pre.length) :
    replacePlaceholders f k (pre ++ '{' :: '{' :: rest)
      = replacePlaceholders f k pre ++ replacePlaceholders f 0 ('{' :: '{' :: rest) := by
  induction pre generalizing k with
  | nil =>
    have : k = 0 := by simpa using hk
    subst this
    rw [replacePlaceholders_nil]
    rfl
  | cons c cs ih =>
    cases k with
    | succ k =>
      rw [List.cons_append, replacePlaceholders_succ, replacePlaceholders_succ]
      exact ih k (by simpa using hk)
    | zero =>
      have hm := matchPlaceholder_append_open (c :: cs) rest (by simp)
      rw [List.cons_append] at hm ⊢
      cases hmk : matchPlaceholder (c :: cs) with
      | none =>
        rw [hmk] at hm
        rw [replacePlaceholders_none f c _ hm, replacePlaceholders_none f c _ hmk,
          ih 0 (Nat.zero_le _)]
        rfl
      | some key =>
        have hl := matchPlaceholder_length _ _ hmk
        simp only [List.length_cons] at hl
        rw [hmk] at hm
        rw [replacePlaceholders_some f c _ key hm, replacePlaceholders_some f c _ key hmk,
          ih (key.length + 3) (by omega), List.append_assoc]

theorem replacePlaceholders_skip (f : List Char → List Char → List Char)
    (xs post : List Char) :
    replacePlaceholders f xs.length (xs ++ post) = replacePlaceholders f 0 post := by
  induction xs with
  | nil => rfl
  | cons x xs ih =>
    rw [List.length_cons, List.cons_append, replacePlaceholders_succ]
    exact ih

/-- The scan treats a placeholder and the texts before and behind it one by
one. -/
theorem replacePlaceholders_split (f : List Char → List Char → List Char)
    (pre key post : List Char) (hne : key ≠ []) (hkey : ∀ x ∈ key, isWordChar x = true) :
    replacePlaceholders f 0 (pre ++ placeholderText key ++ post)
      = replacePlaceholders f 0 pre ++ f (placeholderText key) key
          ++ replacePlaceholders f 0 post := by
  have h1 : pre ++ placeholderText key ++ post
      = pre ++ '{' :: '{' :: (key ++ '}' :: '}' :: post) := by
    simp [placeholderText]
  rw [h1, replacePlaceholders_append_open f pre _ 0 (Nat.zero_le _)]
  have h2 : '{' :: '{' :: (key ++ '}' :: '}' :: post) = placeholderText key ++ post := by
    simp [placeholderText]
  have hm := matchPlaceholder_text key post hne hkey
  rw [← h2] at hm
  rw [replacePlaceholders_some f _ _ key hm]
  have h3 : '{' :: (key ++ '}' :: '}' :: post) = ('{' :: key ++ ['}', '}']) ++ post := by simp
  have h4 : key.length + 3 = ('{' :: key ++ ['}', '}']).length := by simp
  rw [h3, h4, replacePlaceholders_skip, List.append_assoc]

theorem placeholderKeys_nil (k : Nat) : placeholderKeys k [] = [] := by
  cases k <;> rfl

theorem placeholderKeys_succ (k : Nat) (c : Char) (cs : List Char) :
    placeholderKeys (k + 1) (c :: cs) = placeholderKeys k cs := rfl

theorem placeholderKeys_some (c : Char) (cs key : List Char)
    (h : matchPlaceholder (c :: cs) = some key) :
    placeholderKeys 0 (c :: cs) = key :: placeholderKeys (key.length + 3) cs := by
  rw [placeholderKeys, h]

theorem placeholderKeys_none (c : Char) (cs : List Char)
    (h : matchPlaceholder (c :: cs) = none) :
    placeholderKeys 0 (c :: cs) = placeholderKeys 0 cs := by
  rw [placeholderKeys, h]

/-- A replacer that gives back the matched text at every placeholder of a text
leaves the text as it is. -/
theorem replacePlaceholders_fixed (f : List Char → List Char → List Char) (l : List Char)
    (k : Nat)
    (hf : ∀ key ∈ placeholderKeys k l, f (placeholderText key) key = placeholderText key) :
    replacePlaceholders f k l = l.drop k := by
  induction l generalizing k with
  | nil => rw [replacePlaceholders_nil, List.drop_nil]
  | cons c cs ih =>
    cases k with
    | succ k =>
      rw [replacePlaceholders_succ, List.drop_succ_cons]
      exact ih k hf
    | zero =>
      cases hm : matchPlaceholder (c :: cs) with
      | none =>
        rw [replacePlaceholders_none f c cs hm, List.drop_zero]
        rw [placeholderKeys_none c cs hm] at hf
        rw [ih 0 hf, List.drop_zero]
      | some key =>
        rw [placeholderKeys_some c cs key hm] at hf
        rw [replacePlaceholders_some f c cs key hm, hf key (List.mem_cons_self _ _),
          ih (key.length + 3) (fun k' hk' => hf k' (List.mem_cons_of_mem _ hk')),
          List.drop_zero]
        have h3 := (matchPlaceholder_some _ _ hm).2.2
        have h4 : (c :: cs).drop (key.length + 4) = cs.drop (key.length + 3) := rfl
        rw [h4] at h3
        exact h3.symm

/-- A character of the output comes from the text outside the placeholders or
from a replacement. -/
theorem mem_replacePlaceholders (f : List Char → List Char → List Char) (x : Char)
    (l : List Char) (k : Nat) (hx : x ∈ replacePlaceholders f k l) :
    x ∈ replacePlaceholders (fun _ _ => []) k l ∨
      ∃ key ∈ placeholderKeys k l, x ∈ f (placeholderText key) key := by
  induction l generalizing k with
  | nil => rw [replacePlaceholders_nil] at hx; simp at hx
  | cons c cs ih =>
    cases k with
    | succ k =>
      rw [replacePlaceholders_succ] at hx ⊢
      rw [placeholderKeys_succ]
      exact ih k hx
    | zero =>
      cases hm : matchPlaceholder (c :: cs) with
      | none =>
        rw [replacePlaceholders_none _ c cs hm] at hx ⊢
        rw [placeholderKeys_none c cs hm]
        rcases List.mem_cons.mp hx with h | h
        · exact Or.inl (h ▸ List.mem_cons_self _ _)
        · rcases ih 0 h with h' | h'
          · exact Or.inl (List.mem_cons_of_mem _ h')
          · exact Or.inr h'
      | some key =>
        rw [replacePlaceholders_some _ c cs key hm] at hx ⊢
        rw [placeholderKeys_some c cs key hm]
        rcases List.mem_append.mp hx with h | h
        · exact Or.inr ⟨key, List.mem_cons_self _ _, h⟩
        · rcases ih _ h with h' | ⟨key', hk', hx'⟩
          · exact Or.inl (by simpa using h')
          · exact Or.inr ⟨key', List.mem_cons_of_mem _ hk', hx'⟩

theorem mem_of_containsPlaceholder (l : List Char) (h : containsPlaceholder l = true) :
    '{' ∈ l := by
  induction l with
  | nil => simp [containsPlaceholder] at h
  | cons c cs ih =>
    simp only [containsPlaceholder, Bool.or_eq_true] at h
    rcases h with h | h
    · obtain ⟨key, hk⟩ := Option.isSome_iff_exists.mp h
      have h3 := (matchPlaceholder_some _ _ hk).2.2
      have : c = '{' := by
        have := congrArg List.head? h3
        simpa [placeholderText] using this
      rw [this]
      exact List.mem_cons_self _ _
    · exact List.mem_cons_of_mem _ (ih h)

theorem replacer_of_missing (data : List (String × String)) (text key : List Char)
    (h : mapHas data (String.mk key) = false) : replacer data text key = text := by
  simp [replacer, h]

theorem replacer_of_present (data : List (String × String)) (text key : List Char) (v : String)
    (h : mapGet data (String.mk key) = some v) : replacer data text key = v.toList := by
  simp [replacer, h, mapHas_of_mapGet _ _ _ h]

theorem isIdentifier_iff (key : String) :
    isIdentifier key = true ↔ key.toList ≠ [] ∧ ∀ x ∈ key.toList, isWordChar x = true := by
  simp [isIdentifier, List.isEmpty_iff]

theorem toList_placeholder (pre key post : String) :
    (pre ++ "\x7b\x7b" ++ key ++ "\x7d\x7d" ++ post).toList
      = pre.toList ++ placeholderText key.toList ++ post.toList := by
  simp [String.toList, placeholderText]

theorem interpolate_split (data : List (String × String)) (pre key post : String)
    (hid : isIdentifier key = true) :
    interpolate (pre ++ "\x7b\x7b" ++ key ++ "\x7d\x7d" ++ post) data
      = interpolate pre data
          ++ String.mk (replacer data (placeholderText key.toList) key.toList)
          ++ interpolate post data := by
  obtain ⟨hne, hw⟩ := (isIdentifier_iff key).mp hid
  apply String.ext
  simp only [interpolate, toList_placeholder, String.data_append]
  exact replacePlaceholders_split (replacer data) pre.toList key.toList post.toList hne hw

/-- C5. `interpolate` leaves every `{{key}}` token whose key is not an own
property of `data` verbatim in the output: such a token, wherever it stands in
the template, is copied as it is and the texts before and behind it are
interpolated on their own.  When none of the keys of the template's tokens is in
`data`, and so when `data` is empty, the output is the template. -/
theorem interpolate_keeps_unknown (data : List (String × String)) :
    (∀ pre key post : String, isIdentifier key = true → mapHas data key = false →
      interpolate (pre ++ "\x7b\x7b" ++ key ++ "\x7d\x7d" ++ post) data
        = interpolate pre data ++ "\x7b\x7b" ++ key ++ "\x7d\x7d" ++ interpolate post data) ∧
    (∀ template : String,
      (∀ key ∈ placeholderKeys 0 template.toList, mapHas data (String.mk key) = false) →
      interpolate template data = template) ∧
    (∀ template : String, interpolate template [] = template) := by
  have h2 : ∀ (d : List (String × String)) (template : String),
      (∀ key ∈ placeholderKeys 0 template.toList, mapHas d (String.mk key) = false) →
      interpolate template d = template := by
    intro d template h
    apply String.ext
    simp only [interpolate]
    rw [replacePlaceholders_fixed (replacer d) template.toList 0
      (fun key hk => replacer_of_missing d _ key (h key hk))]
    rfl
  refine ⟨fun pre key post hid hmiss => ?_, h2 data, fun template => ?_⟩
  · rw [interpolate_split data pre key post hid,
      replacer_of_missing data _ _ (by simpa using hmiss)]
    apply String.ext
    simp [placeholderText]
  · exact h2 [] template (fun key _ => rfl)

/-- C5 at the template `Hi {{name}}, {{n}} new` with data for `n` alone: the
token of `name` stays, and with no data the template comes back. -/
theorem interpolate_keeps_unknown_witness :
    interpolate ("Hi " ++ "\x7b\x7b" ++ "name" ++ "\x7d\x7d" ++ ", \x7b\x7bn\x7d\x7d new")
        [("n", "3")]
      = interpolate "Hi " [("n", "3")] ++ "\x7b\x7b" ++ "name" ++ "\x7d\x7d"
          ++ interpolate ", \x7b\x7bn\x7d\x7d new" [("n", "3")] ∧
    interpolate "Hi \x7b\x7bname\x7d\x7d, \x7b\x7bn\x7d\x7d new" [("m", "3")]
      = "Hi \x7b\x7bname\x7d\x7d, \x7b\x7bn\x7d\x7d new" :=
  ⟨(interpolate_keeps_unknown [("n", "3")]).1 "Hi " "name" ", \x7b\x7bn\x7d\x7d new"
      (by decide) (by decide),
   (interpolate_keeps_unknown [("m", "3")]).2.1
      "Hi \x7b\x7bname\x7d\x7d, \x7b\x7bn\x7d\x7d new" (by decide)⟩

/-- C6, as stated, fails: with every placeholder key of the template present in
`data`, the output still contains a `{{...}}` token when a value carries one
(the template `{{k}}` with `k` set to `{{k}}`), or when braces of the template
close around a value (the template `{{{{a}}}}` with `a` set to `b` gives
`{{b}}`). -/
theorem interpolate_output_with_placeholder :
    ((∀ key ∈ placeholderKeys 0 "\x7b\x7bk\x7d\x7d".toList,
        mapHas [("k", "\x7b\x7bk\x7d\x7d")] (String.mk key) = true) ∧
      containsPlaceholder
        (interpolate "\x7b\x7bk\x7d\x7d" [("k", "\x7b\x7bk\x7d\x7d")]).toList = true) ∧
    ((∀ key ∈ placeholderKeys 0 "\x7b\x7b\x7b\x7ba\x7d\x7d\x7d\x7d".toList,
        mapHas [("a", "b")] (String.mk key) = true) ∧
      interpolate "\x7b\x7b\x7b\x7ba\x7d\x7d\x7d\x7d" [("a", "b")] = "\x7b\x7bb\x7d\x7d" ∧
      containsPlaceholder
        (interpolate "\x7b\x7b\x7b\x7ba\x7d\x7d\x7d\x7d" [("a", "b")]).toList = true) := by
  decide

/-- C6, amended. When every placeholder key of the template is present in
`data`, no value of `data` contains the character `{`, and the template has no
`{` outside its placeholders, the output of `interpolate` contains no `{` and so
no `{{...}}` token. -/
theorem interpolate_no_placeholder_left (template : String) (data : List (String × String))
    (hkeys : ∀ key ∈ placeholderKeys 0 template.toList, mapHas data (String.mk key) = true)
    (hvals : ∀ e ∈ data, '{' ∉ e.2.toList)
    (hlit : '{' ∉ literalText template.toList) :
    '{' ∉ (interpolate template data).toList ∧
      containsPlaceholder (interpolate template data).toList = false := by
  have hno : '{' ∉ (interpolate template data).toList := by
    intro hx
    rcases mem_replacePlaceholders (replacer data) '{' template.toList 0 hx with h | h
    · exact hlit h
    · obtain ⟨key, hk, hx'⟩ := h
      obtain ⟨v, hv⟩ := mapGet_isSome_of_mapHas _ _ (hkeys key hk)
      rw [replacer_of_present data _ key v hv] at hx'
      obtain ⟨e, he, hev⟩ := mem_of_mapGet _ _ _ hv
      exact hvals e he (hev ▸ hx')
  refine ⟨hno, ?_⟩
  by_contra hc
  exact hno (mem_of_containsPlaceholder _ (by simpa using hc))

/-- The amended C6 at the template `<b>{{name}}</b>` with `name` set to
`Ada`. -/
theorem interpolate_no_placeholder_left_witness :
    '{' ∉ (interpolate "<b>\x7b\x7bname\x7d\x7d</b>" [("name", "Ada")]).toList ∧
      containsPlaceholder
        (interpolate "<b>\x7b\x7bname\x7d\x7d</b>" [("name", "Ada")]).toList = false :=
  interpolate_no_placeholder_left "<b>\x7b\x7bname\x7d\x7d</b>" [("name", "Ada")]
    (by decide) (by decide) (by decide)

/-- C7. `interpolate` substitutes in one pass: a `{{key}}` token whose key is in
`data`, wherever it stands in the template, is replaced by the value as a
string, the value is put into the output as it is, not scanned again, and the
texts before and behind the token are interpolated on their own.  For a
template that is exactly `{{key}}` the output is exactly the value, whatever
tokens the value contains. -/
theorem interpolate_single_pass (data : List (String × String)) :
    (∀ pre key post value : String, isIdentifier key = true → mapGet data key = some value →
      interpolate (pre ++ "\x7b\x7b" ++ key ++ "\x7d\x7d" ++ post) data
        = interpolate pre data ++ value ++ interpolate post data) ∧
    (∀ key value : String, isIdentifier key = true → mapGet data key = some value →
      interpolate ("\x7b\x7b" ++ key ++ "\x7d\x7d") data = value) := by
  have h1 : ∀ pre key post value : String, isIdentifier key = true →
      mapGet data key = some value →
      interpolate (pre ++ "\x7b\x7b" ++ key ++ "\x7d\x7d" ++ post) data
        = interpolate pre data ++ value ++ interpolate post data := by
    intro pre key post value hid hv
    rw [interpolate_split data pre key post hid,
      replacer_of_present data _ _ value (by simpa using hv)]
    rfl
  refine ⟨h1, fun key value hid hv => ?_⟩
  have := h1 "" key "" value hid hv
  have e1 : ("" ++ "\x7b\x7b" ++ key ++ "\x7d\x7d" ++ "" : String)
      = "\x7b\x7b" ++ key ++ "\x7d\x7d" := by
    apply String.ext; simp
  rw [e1] at this
  rw [this]
  apply String.ext
  simp [interpolate, replacePlaceholders_nil]

/-- C7 at the template `{{k}}` with `k` set to `{{j}}` and `j` set to `J`: the
output is `{{j}}`, not `J`. -/
theorem interpolate_single_pass_witness :
    interpolate ("\x7b\x7b" ++ "k" ++ "\x7d\x7d") [("k", "\x7b\x7bj\x7d\x7d"), ("j", "J")]
      = "\x7b\x7bj\x7d\x7d" :=
  (interpolate_single_pass [("k", "\x7b\x7bj\x7d\x7d"), ("j", "J")]).2 "k" "\x7b\x7bj\x7d\x7d"
    (by decide) (by decide)

open RegularExpression

/-! ## Domain validation -/

theorem mem_anyOf (cs : List Char) (x : List Char) :
    x ∈ (anyOf cs).matches' ↔ ∃ c ∈ cs, x = [c] := by
  induction cs with
  | nil =>
    simp only [anyOf, List.foldr_nil, matches'_zero, List.not_mem_nil, false_and, exists_false,
      iff_false]
    exact fun h => h
  | cons a cs ih =>
    have e : anyOf (a :: cs) = char a + anyOf cs := rfl
    rw [e, matches'_add, Language.mem_add, ih, matches'_char]
    simp only [List.mem_cons, exists_eq_or_imp]
    exact Iff.rfl

theorem toNat_ofNat_small (n : Nat) (h : n < 55296) : (Char.ofNat n).toNat = n := by
  have hv : n.isValidChar := Or.inl h
  simp only [Char.ofNat, hv, Char.toNat, Char.ofNatAux, dite_true]
  rfl

theorem toNat_injective (a b : Char) (h : a.toNat = b.toNat) : a = b := by
  rw [← Char.ofNat_toNat a, ← Char.ofNat_toNat b, h]

theorem mem_charRange (lo hi c : Char) (hhi : hi.toNat < 55296) :
    c ∈ charRange lo hi ↔ lo.toNat ≤ c.toNat ∧ c.toNat ≤ hi.toNat := by
  simp only [charRange, List.mem_map, List.mem_range]
  constructor
  · rintro ⟨i, hi', rfl⟩
    rw [toNat_ofNat_small _ (by omega)]
    omega
  · rintro ⟨h1, h2⟩
    refine ⟨c.toNat - lo.toNat, by omega, ?_⟩
    have : lo.toNat + (c.toNat - lo.toNat) = c.toNat := by omega
    rw [this, Char.ofNat_toNat]

theorem isUpper_iff (c : Char) : c.isUpper = true ↔ 65 ≤ c.toNat ∧ c.toNat ≤ 90 := by
  simp only [Char.isUpper, Char.toNat, ge_iff_le, Bool.and_eq_true, decide_eq_true_eq,
    UInt32.le_def, BitVec.le_def, UInt32.toNat]
  rfl
theorem isLower_iff (c : Char) : c.isLower = true ↔ 97 ≤ c.toNat ∧ c.toNat ≤ 122 := by
  simp only [Char.isLower, Char.toNat, ge_iff_le, Bool.and_eq_true, decide_eq_true_eq,
    UInt32.le_def, BitVec.le_def, UInt32.toNat]
  rfl
theorem isDigit_iff (c : Char) : c.isDigit = true ↔ 48 ≤ c.toNat ∧ c.toNat ≤ 57 := by
  simp only [Char.isDigit, Char.toNat, ge_iff_le, Bool.and_eq_true, decide_eq_true_eq,
    UInt32.le_def, BitVec.le_def, UInt32.toNat]
  rfl

theorem mem_alnumClass (c : Char) :
    c ∈ alnumClass ↔ (c.isAlpha || c.isDigit) = true := by
  simp only [alnumClass, List.mem_append, Char.isAlpha, Bool.or_eq_true, isUpper_iff,
    isLower_iff, isDigit_iff]
  rw [mem_charRange 'a' 'z' c (by decide), mem_charRange 'A' 'Z' c (by decide),
    mem_charRange '0' '9' c (by decide)]
  have e1 : 'a'.toNat = 97 := rfl
  have e2 : 'z'.toNat = 122 := rfl
  have e3 : 'A'.toNat = 65 := rfl
  have e4 : 'Z'.toNat = 90 := rfl
  have e5 : '0'.toNat = 48 := rfl
  have e6 : '9'.toNat = 57 := rfl
  rw [e1, e2, e3, e4, e5, e6]
  tauto

theorem mem_alnumHyphenClass (c : Char) :
    c ∈ alnumHyphenClass ↔ isLabelChar c = true := by
  simp only [alnumHyphenClass, List.mem_append, mem_alnumClass, List.mem_singleton, isLabelChar,
    Bool.or_eq_true, beq_iff_eq]

theorem mem_alnumClass_iff_label (c : Char) :
    c ∈ alnumClass ↔ isLabelChar c = true ∧ c ≠ '-' := by
  rw [mem_alnumClass]
  constructor
  · intro h
    refine ⟨by simp only [isLabelChar, Bool.or_eq_true]; exact Or.inl (by simpa using h), ?_⟩
    rintro rfl
    exact absurd h (by decide)
  · rintro ⟨h, hne⟩
    simp only [isLabelChar, Bool.or_eq_true, beq_iff_eq] at h
    rcases h with h | h
    · simpa using h
    · exact absurd h hne

theorem mem_atMost_anyOf (cls : List Char) (n : Nat) (x : List Char) :
    x ∈ (atMost n (anyOf cls)).matches' ↔ x.length ≤ n ∧ ∀ c ∈ x, c ∈ cls := by
  induction n generalizing x with
  | zero =>
    have e : atMost 0 (anyOf cls) = 1 := rfl
    rw [e, matches'_epsilon, Language.mem_one]
    constructor
    · rintro rfl; simp
    · rintro ⟨h, _⟩; exact List.length_eq_zero.mp (by omega)
  | succ n ih =>
    have e : atMost (n + 1) (anyOf cls) = 1 + anyOf cls * atMost n (anyOf cls) := rfl
    rw [e, matches'_add, Language.mem_add, matches'_epsilon, Language.mem_one, matches'_mul,
      Language.mem_mul]
    constructor
    · rintro (rfl | ⟨a, ha, b, hb, rfl⟩)
      · simp
      · obtain ⟨c, hc, rfl⟩ := (mem_anyOf cls a).mp ha
        obtain ⟨hl, hm⟩ := (ih b).mp hb
        refine ⟨by simp; omega, ?_⟩
        intro y hy
        rcases List.mem_cons.mp hy with rfl | hy
        · exact hc
        · exact hm y hy
    · rintro ⟨hl, hm⟩
      cases x with
      | nil => exact Or.inl rfl
      | cons c cs =>
        refine Or.inr ⟨[c], (mem_anyOf cls [c]).mpr ⟨c, hm c (List.mem_cons_self _ _), rfl⟩,
          cs, (ih cs).mpr ⟨by simpa using hl, fun y hy => hm y (List.mem_cons_of_mem _ hy)⟩,
          rfl⟩

/-- The label group of `domainRegex` matches exactly the labels. -/
theorem mem_labelRegex (x : List Char) : x ∈ labelRegex.matches' ↔ IsLabel x := by
  simp only [labelRegex, matches'_mul, matches'_add, matches'_epsilon, Language.mem_mul,
    Language.mem_add, Language.mem_one, mem_anyOf, mem_atMost_anyOf]
  constructor
  · rintro ⟨a, ⟨c, hc, rfl⟩, b, hb, rfl⟩
    have hc' := (mem_alnumClass_iff_label c).mp hc
    rcases hb with rfl | ⟨m, ⟨hml, hmc⟩, e, ⟨d, hd, rfl⟩, rfl⟩
    · refine ⟨by simp, by simp, ?_, ?_, ?_⟩
      · intro y hy
        simp only [List.append_nil, List.mem_singleton] at hy
        rw [hy]; exact hc'.1
      · simpa using hc'.2
      · simpa using hc'.2
    · have hd' := (mem_alnumClass_iff_label d).mp hd
      refine ⟨by simp, by simp; omega, ?_, ?_, ?_⟩
      · intro y hy
        simp only [List.singleton_append, List.mem_cons, List.mem_append,
          List.mem_singleton, List.not_mem_nil, or_false] at hy
        rcases hy with rfl | hy | rfl
        · exact hc'.1
        · exact (mem_alnumHyphenClass y).mp (hmc y hy)
        · exact hd'.1
      · simpa using hc'.2
      · have : [c] ++ (m ++ [d]) = (c :: m) ++ [d] := by simp
        rw [this, List.getLast?_append]
        simpa using hd'.2
  · rintro ⟨h1, h63, hch, hhead, hlast⟩
    cases x with
    | nil => simp at h1
    | cons c rest =>
      have hc : c ∈ alnumClass :=
        (mem_alnumClass_iff_label c).mpr ⟨hch c (List.mem_cons_self _ _), by simpa using hhead⟩
      refine ⟨[c], ⟨c, hc, rfl⟩, rest, ?_, rfl⟩
      rcases List.eq_nil_or_concat rest with rfl | ⟨m, d, hrest⟩
      · exact Or.inl rfl
      · rw [List.concat_eq_append] at hrest
        subst hrest
        have hd : d ∈ alnumClass := by
          refine (mem_alnumClass_iff_label d).mpr ⟨hch d (by simp), ?_⟩
          have : c :: (m ++ [d]) = (c :: m) ++ [d] := by simp
          rw [this, List.getLast?_append] at hlast
          simpa using hlast
        refine Or.inr ⟨m, ⟨?_, ?_⟩, [d], ⟨d, hd, rfl⟩, rfl⟩
        · simp only [List.length_cons, List.length_append, List.length_nil] at h63
          omega
        · intro y hy
          exact (mem_alnumHyphenClass y).mpr (hch y (by simp [hy]))

open RegularExpression

theorem toLower_of_lower (c : Char) (hc : 97 ≤ c.toNat) : c.toLower = c := by
  unfold Char.toLower
  simp only
  rw [if_neg (by omega)]

theorem toUpper_of_lower (c : Char) (h1 : 97 ≤ c.toNat) (h2 : c.toNat ≤ 122) :
    c.toUpper = Char.ofNat (c.toNat - 32) := by
  unfold Char.toUpper
  simp only
  rw [if_pos ⟨h1, h2⟩]

theorem toLower_eq_iff (x c : Char) (h1 : 97 ≤ c.toNat) (h2 : c.toNat ≤ 122) :
    x.toLower = c ↔ x = c ∨ x = c.toUpper := by
  rw [toUpper_of_lower c h1 h2]
  constructor
  · intro h
    by_cases hu : x.toNat ≥ 65 ∧ x.toNat ≤ 90
    · right
      have hx : x.toLower = Char.ofNat (x.toNat + 32) := by
        unfold Char.toLower
        simp only
        rw [if_pos hu]
      rw [hx] at h
      have hn : c.toNat = x.toNat + 32 := by
        rw [← h, toNat_ofNat_small _ (by omega)]
      rw [hn, Nat.add_sub_cancel, Char.ofNat_toNat]
    · left
      have hx : x.toLower = x := by
        unfold Char.toLower
        simp only
        rw [if_neg hu]
      rw [← hx, h]
  · rintro (rfl | rfl)
    · exact toLower_of_lower _ h1
    · have hn : (Char.ofNat (c.toNat - 32)).toNat = c.toNat - 32 :=
        toNat_ofNat_small _ (by omega)
      unfold Char.toLower
      simp only
      rw [hn, if_pos (by omega)]
      have : c.toNat - 32 + 32 = c.toNat := by omega
      rw [this, Char.ofNat_toNat]

theorem mem_ciChar (c : Char) (x : List Char) (h1 : 97 ≤ c.toNat) (h2 : c.toNat ≤ 122) :
    x ∈ (ciChar c).matches' ↔ ∃ y, x = [y] ∧ y.toLower = c := by
  have e : (ciChar c).matches' = (char c.toLower).matches' + (char c.toUpper).matches' := rfl
  rw [e, Language.mem_add, matches'_char, matches'_char, toLower_of_lower c h1]
  constructor
  · rintro (h | h)
    · exact ⟨c, h, toLower_of_lower c h1⟩
    · exact ⟨c.toUpper, h, (toLower_eq_iff _ c h1 h2).mpr (Or.inr rfl)⟩
  · rintro ⟨y, rfl, hy⟩
    rcases (toLower_eq_iff y c h1 h2).mp hy with rfl | rfl
    · exact Or.inl rfl
    · exact Or.inr rfl

theorem mem_ciWord (w x : List Char) (hw : ∀ c ∈ w, 97 ≤ c.toNat ∧ c.toNat ≤ 122) :
    x ∈ (ciWord w).matches' ↔ x.map Char.toLower = w := by
  induction w generalizing x with
  | nil =>
    have e : ciWord [] = 1 := rfl
    rw [e, matches'_epsilon, Language.mem_one]
    simp
  | cons c w ih =>
    have e : ciWord (c :: w) = ciChar c * ciWord w := rfl
    have hc := hw c (List.mem_cons_self _ _)
    rw [e, matches'_mul, Language.mem_mul]
    constructor
    · rintro ⟨a, ha, b, hb, rfl⟩
      obtain ⟨y, rfl, hy⟩ := (mem_ciChar c a hc.1 hc.2).mp ha
      have := (ih b (fun d hd => hw d (List.mem_cons_of_mem _ hd))).mp hb
      simp [hy, this]
    · intro h
      cases x with
      | nil => simp at h
      | cons y ys =>
        simp only [List.map_cons, List.cons.injEq] at h
        exact ⟨[y], (mem_ciChar c [y] hc.1 hc.2).mpr ⟨y, rfl, h.1⟩, ys,
          (ih ys (fun d hd => hw d (List.mem_cons_of_mem _ hd))).mpr h.2, rfl⟩

theorem mem_anyWord (ws : List String) (x : List Char)
    (hws : ∀ w ∈ ws, ∀ c ∈ w.toList, 97 ≤ c.toNat ∧ c.toNat ≤ 122) :
    x ∈ (anyWord ws).matches' ↔ String.mk (x.map Char.toLower) ∈ ws := by
  induction ws with
  | nil =>
    have e : anyWord [] = 0 := rfl
    rw [e, matches'_zero]
    simp only [List.not_mem_nil, iff_false]
    exact fun h => h
  | cons w ws ih =>
    have e : anyWord (w :: ws) = ciWord w.toList + anyWord ws := rfl
    rw [e, matches'_add, Language.mem_add,
      mem_ciWord w.toList x (hws w (List.mem_cons_self _ _)),
      ih (fun v hv => hws v (List.mem_cons_of_mem _ hv)), List.mem_cons]
    constructor
    · rintro (h | h)
      · exact Or.inl (by rw [h]; rfl)
      · exact Or.inr h
    · rintro (h | h)
      · exact Or.inl (by rw [← h]; rfl)
      · exact Or.inr h

theorem tldList_lower : ∀ w ∈ tldList, ∀ c ∈ w.toList, 97 ≤ c.toNat ∧ c.toNat ≤ 122 := by
  decide

theorem mem_tldRegex (x : List Char) :
    x ∈ (anyWord tldList).matches' ↔ IsAllowedSuffix x :=
  mem_anyWord tldList x tldList_lower

/-- The language of `domainRegex` is the set of the texts of the form
`label_1. ... label_n.tld` with `n ≥ 1`. -/
theorem mem_domainRegex (d : List Char) : d ∈ domainRegex.matches' ↔ IsDomainForm d := by
  have hld : ∀ y : List Char, y ∈ (labelRegex * char '.').matches' ↔
      ∃ l, IsLabel l ∧ y = l ++ ['.'] := by
    intro y
    rw [matches'_mul, Language.mem_mul]
    constructor
    · rintro ⟨a, ha, b, hb, rfl⟩
      rw [matches'_char] at hb
      exact ⟨a, (mem_labelRegex a).mp ha, by rw [show b = ['.'] from hb]⟩
    · rintro ⟨l, hl, rfl⟩
      exact ⟨l, (mem_labelRegex l).mpr hl, ['.'], by rw [matches'_char]; rfl, rfl⟩
  unfold domainRegex IsDomainForm
  rw [matches'_mul, Language.mem_mul]
  constructor
  · rintro ⟨a, ha, t, ht, rfl⟩
    rw [matches'_mul, Language.mem_mul] at ha
    obtain ⟨y, hy, z, hz, rfl⟩ := ha
    rw [matches'_star, Language.mem_kstar] at hz
    obtain ⟨L, rfl, hL⟩ := hz
    obtain ⟨l, hl, rfl⟩ := (hld y).mp hy
    have hex : ∃ labels : List (List Char), (∀ l ∈ labels, IsLabel l) ∧
        L = labels.map (fun l => l ++ ['.']) := by
      clear hy
      induction L with
      | nil => exact ⟨[], by simp, rfl⟩
      | cons y' L ih =>
        obtain ⟨l', hl', rfl⟩ := (hld y').mp (hL y' (List.mem_cons_self _ _))
        obtain ⟨labels, hlab, rfl⟩ := ih (fun y hy => hL y (List.mem_cons_of_mem _ hy))
        refine ⟨l' :: labels, ?_, rfl⟩
        intro x hx
        rcases List.mem_cons.mp hx with rfl | hx
        · exact hl'
        · exact hlab x hx
    obtain ⟨labels, hlab, rfl⟩ := hex
    refine ⟨l :: labels, t, by simp, ?_, (mem_tldRegex t).mp ht, by simp⟩
    intro x hx
    rcases List.mem_cons.mp hx with rfl | hx
    · exact hl
    · exact hlab x hx
  · rintro ⟨labels, tld, hne, hlab, htld, rfl⟩
    cases labels with
    | nil => exact absurd rfl hne
    | cons l labels =>
      refine ⟨_, ?_, tld, (mem_tldRegex tld).mpr htld, rfl⟩
      rw [matches'_mul, Language.mem_mul]
      refine ⟨l ++ ['.'], (hld _).mpr ⟨l, hlab l (List.mem_cons_self _ _), rfl⟩,
        (labels.map (fun l => l ++ ['.'])).flatten, ?_, by simp⟩
      rw [matches'_star, Language.mem_kstar]
      refine ⟨labels.map (fun l => l ++ ['.']), rfl, ?_⟩
      intro y hy
      obtain ⟨l', hl', rfl⟩ := List.mem_map.mp hy
      exact (hld _).mpr ⟨l', hlab l' (List.mem_cons_of_mem _ hl'), rfl⟩

open RegularExpression

theorem rmatch_domainRegex_iff (l : List Char) :
    domainRegex.rmatch l = true ↔ IsDomainForm l := by
  rw [rmatch_iff_matches', mem_domainRegex]

theorem splitDots_ne_nil (l : List Char) : splitDots l ≠ [] := by
  cases l with
  | nil => simp [splitDots]
  | cons c cs =>
    simp only [splitDots]
    split
    · simp
    · split <;> simp

theorem splitDots_cons_dot (cs : List Char) : splitDots ('.' :: cs) = [] :: splitDots cs := by
  simp only [splitDots]
  split
  · rename_i h; exact absurd h (splitDots_ne_nil cs)
  · rename_i p ps h; simp [h]

theorem splitDots_cons_other (c : Char) (cs : List Char) (hc : c ≠ '.') :
    ∃ p ps, splitDots cs = p :: ps ∧ splitDots (c :: cs) = (c :: p) :: ps := by
  cases h : splitDots cs with
  | nil => exact absurd h (splitDots_ne_nil cs)
  | cons p ps =>
    refine ⟨p, ps, rfl, ?_⟩
    simp only [splitDots, h, if_neg hc]

theorem splitDots_nodot (l : List Char) (h : '.' ∉ l) : splitDots l = [l] := by
  induction l with
  | nil => rfl
  | cons c cs ih =>
    have hc : c ≠ '.' := fun e => h (e ▸ List.mem_cons_self _ _)
    obtain ⟨p, ps, h1, h2⟩ := splitDots_cons_other c cs hc
    rw [ih (fun hm => h (List.mem_cons_of_mem _ hm))] at h1
    simp only [List.cons.injEq] at h1
    rw [h2, ← h1.1, ← h1.2]

theorem splitDots_append_dot (l rest : List Char) (h : '.' ∉ l) :
    splitDots (l ++ '.' :: rest) = l :: splitDots rest := by
  induction l with
  | nil => exact splitDots_cons_dot rest
  | cons c cs ih =>
    have hc : c ≠ '.' := fun e => h (e ▸ List.mem_cons_self _ _)
    obtain ⟨p, ps, h1, h2⟩ := splitDots_cons_other c (cs ++ '.' :: rest) hc
    rw [ih (fun hm => h (List.mem_cons_of_mem _ hm))] at h1
    simp only [List.cons.injEq] at h1
    rw [List.cons_append, h2, ← h1.1, ← h1.2]

theorem splitDots_labels (labels : List (List Char)) (tld : List Char)
    (hl : ∀ l ∈ labels, '.' ∉ l) (ht : '.' ∉ tld) :
    splitDots ((labels.map (fun l => l ++ ['.'])).flatten ++ tld) = labels ++ [tld] := by
  induction labels with
  | nil => simpa using splitDots_nodot tld ht
  | cons l labels ih =>
    have e : ((l :: labels).map (fun l => l ++ ['.'])).flatten ++ tld
        = l ++ '.' :: ((labels.map (fun l => l ++ ['.'])).flatten ++ tld) := by simp
    rw [e, splitDots_append_dot l _ (hl l (List.mem_cons_self _ _)),
      ih (fun x hx => hl x (List.mem_cons_of_mem _ hx))]
    rfl

theorem IsLabel.no_dot {l : List Char} (h : IsLabel l) : '.' ∉ l := by
  intro hm
  exact absurd (h.2.2.1 '.' hm) (by decide)

theorem tldList_shape : ∀ w ∈ tldList, w.toList.length ≤ 4 ∧ '.' ∉ w.toList := by
  decide

theorem IsAllowedSuffix.shape {t : List Char} (h : IsAllowedSuffix t) :
    t.length ≤ 4 ∧ '.' ∉ t := by
  have hs := tldList_shape _ h
  have e : (String.mk (t.map Char.toLower)).toList = t.map Char.toLower := rfl
  rw [e, List.length_map] at hs
  refine ⟨hs.1, fun hm => hs.2 ?_⟩
  have : Char.toLower '.' ∈ t.map Char.toLower := List.mem_map_of_mem _ hm
  exact this

/-- The pieces between the dots of a text of the domain form are its labels
and its suffix. -/
theorem IsDomainForm.pieces {d : List Char} (h : IsDomainForm d) :
    ∃ (labels : List (List Char)) (tld : List Char), labels ≠ [] ∧
      (∀ l ∈ labels, IsLabel l) ∧ IsAllowedSuffix tld ∧ splitDots d = labels ++ [tld] := by
  obtain ⟨labels, tld, hne, hlab, htld, rfl⟩ := h
  exact ⟨labels, tld, hne, hlab, htld,
    splitDots_labels labels tld (fun l hl => (hlab l hl).no_dot) htld.shape.2⟩

/-- C8. `isValidDomain d` holds if and only if `d` has the form
`label_1.label_2. ... .label_n.tld` with `n ≥ 1`, where every label is 1 to 63
ASCII letters, digits and hyphens with no hyphen first or last, and `tld` is,
whatever the case of its letters, a member of the suffix list of the code. -/
theorem isValidDomain_iff_form (d : String) :
    isValidDomain d = true ↔ IsDomainForm d.toList := by
  unfold isValidDomain
  rw [rmatch_iff_matches', mem_domainRegex]

/-- C9. `isValidDomain` accepts `example.com` and `sub.example.co.uk`, and
rejects `not a domain`, `-bad.com` and every string one of whose pieces between
dots is longer than 63 characters. -/
theorem isValidDomain_examples :
    isValidDomain "example.com" = true ∧
    isValidDomain "sub.example.co.uk" = true ∧
    isValidDomain "not a domain" = false ∧
    isValidDomain "-bad.com" = false ∧
    (∀ d : String, (∃ p ∈ splitDots d.toList, 63 < p.length) → isValidDomain d = false) := by
  refine ⟨?_, ?_, ?_, ?_, ?_⟩
  · unfold isValidDomain
    rw [rmatch_domainRegex_iff]
    exact ⟨["example".toList], "com".toList, by simp, by unfold IsLabel; decide,
      by unfold IsAllowedSuffix; decide, by decide⟩
  · unfold isValidDomain
    rw [rmatch_domainRegex_iff]
    exact ⟨["sub".toList, "example".toList, "co".toList], "uk".toList, by simp,
      by unfold IsLabel; decide, by unfold IsAllowedSuffix; decide, by decide⟩
  · unfold isValidDomain
    rw [← Bool.not_eq_true, rmatch_domainRegex_iff]
    intro h
    obtain ⟨labels, tld, hne, _, _, hs⟩ := h.pieces
    have e : splitDots "not a domain".toList = ["not a domain".toList] := by decide
    rw [e] at hs
    cases labels with
    | nil => exact hne rfl
    | cons l ls =>
      have := congrArg List.length hs
      simp at this
  · unfold isValidDomain
    rw [← Bool.not_eq_true, rmatch_domainRegex_iff]
    intro h
    obtain ⟨labels, tld, hne, hlab, _, hs⟩ := h.pieces
    have e : splitDots "-bad.com".toList = ["-bad".toList, "com".toList] := by decide
    rw [e] at hs
    cases labels with
    | nil => exact hne rfl
    | cons l ls =>
      simp only [List.cons_append, List.cons.injEq] at hs
      have hl := hlab l (List.mem_cons_self _ _)
      rw [← hs.1] at hl
      exact hl.2.2.2.1 (by decide)
  · rintro d ⟨p, hp, hlen⟩
    unfold isValidDomain
    rw [← Bool.not_eq_true, rmatch_domainRegex_iff]
    intro h
    obtain ⟨labels, tld, _, hlab, htld, hs⟩ := h.pieces
    rw [hs] at hp
    rcases List.mem_append.mp hp with hp | hp
    · have := (hlab p hp).2.1
      omega
    · rw [List.mem_singleton] at hp
      have := htld.shape.1
      rw [hp] at hlen
      omega

/-- The last part of C9 at a label of 64 letters `a` before `.com`. -/
theorem isValidDomain_examples_witness :
    isValidDomain (String.mk (List.replicate 64 'a') ++ ".com") = false :=
  isValidDomain_examples.2.2.2.2 (String.mk (List.replicate 64 'a') ++ ".com")
    ⟨List.replicate 64 'a', by decide, by decide⟩

/-! ## The analysis flow, end to end -/

theorem getUserId_stats (env : Env) (s : Session) : (getUserId env s).2.stats = s.stats := by
  unfold getUserId
  split
  · split <;> rfl
  · rfl

theorem getUserId_requests (env : Env) (s : Session) :
    (getUserId env s).2.requests = s.requests := by
  unfold getUserId
  split
  · split <;> rfl
  · rfl

/-- The session in which `analyzeUrl` enters its `try` block on a cache miss:
the user id is settled and the request is in the log. -/
theorem analyzeUrl_of_miss (env : Env) (url : String) (s : Session)
    (h : mapGet s.analysisCache url = none) :
    ∃ s2 : Session, s2.stats = s.stats ∧ s2.analysisCache = s.analysisCache ∧
      s2.view = s.view ∧
      s2.requests = s.requests ++
        [{ endpoint := s.apiUrl ++ "/analyze", url := url,
           sensitivity := sensitivityOf (getSettings s), userId := (getUserId env s).1 }] ∧
      analyzeUrl env url s =
        (match analyzeTry env url s2 with
         | (.ok r, s3) => (.ok r, s3)
         | (.error _, s3) => (.error analysisFailedMessage, s3)) := by
  refine ⟨{ (getUserId env s).2 with
      requests := (getUserId env s).2.requests ++
        [{ endpoint := s.apiUrl ++ "/analyze", url := url,
           sensitivity := sensitivityOf (getSettings s),
           userId := (getUserId env s).1 }] }, ?_, ?_, ?_, ?_, ?_⟩
  · exact getUserId_stats env s
  · exact getUserId_analysisCache env s
  · exact getUserId_view env s
  · simp only [getUserId_requests]
  · unfold analyzeUrl
    simp only [h]
    try rfl

theorem analyzeTry_of_failed (env : Env) (url : String) (s : Session)
    (h : requestFailed env.fetchOutcome = true) :
    ∃ e, analyzeTry env url s = (.error e, s) := by
  unfold analyzeTry
  cases hf : env.fetchOutcome with
  | transportError => exact ⟨_, rfl⟩
  | response status body =>
    rw [hf] at h
    have hok : responseOk status = false := by simpa [requestFailed] using h
    exact ⟨"HTTP error! status: " ++ toString status, by simp [hok]⟩

theorem analyzeTry_of_ok (env : Env) (url : String) (s : Session) (status : Nat)
    (r : AnalysisResult) (hf : env.fetchOutcome = .response status (.value r))
    (hok : responseOk status = true) :
    analyzeTry env url s
      = (.ok r, updateStats env r { s with analysisCache := mapSet s.analysisCache url r }) := by
  unfold analyzeTry
  simp [hf, hok]

theorem analyzeTry_requests (env : Env) (url : String) (s : Session) :
    (analyzeTry env url s).2.requests = s.requests := by
  unfold analyzeTry
  cases env.fetchOutcome with
  | transportError => rfl
  | response status body =>
    by_cases hok : responseOk status = true
    · cases body with
      | unparseable => simp [hok]
      | value result => simp [hok, updateStats_requests]
    · simp [hok]

theorem analyzeTry_stats (env : Env) (url : String) (s : Session) :
    (analyzeTry env url s).2.stats = s.stats ∨
      ∃ r, (analyzeTry env url s).2.stats = bumpStats r s.stats := by
  unfold analyzeTry
  cases env.fetchOutcome with
  | transportError => exact Or.inl rfl
  | response status body =>
    by_cases hok : responseOk status = true
    · cases body with
      | unparseable => simp [hok]
      | value result => exact Or.inr ⟨result, by simp [hok, updateStats_stats]⟩
    · simp [hok]

theorem analyzeUrl_stats (env : Env) (url : String) (s : Session) :
    (analyzeUrl env url s).2.stats = s.stats ∨
      ∃ r, (analyzeUrl env url s).2.stats = bumpStats r s.stats := by
  cases hc : mapGet s.analysisCache url with
  | some r => rw [analyzeUrl_of_cached env url s r hc]; exact Or.inl rfl
  | none =>
    obtain ⟨s2, hst, _, _, _, heq⟩ := analyzeUrl_of_miss env url s hc
    have key := analyzeTry_stats env url s2
    rw [heq]
    rcases ht : analyzeTry env url s2 with ⟨res, s3⟩
    rw [ht] at key
    rw [hst] at key
    cases res with
    | error e => exact key
    | ok r => exact key

theorem Stats.le_bumpStats (r : AnalysisResult) (st : Stats) : Stats.le st (bumpStats r st) := by
  unfold Stats.le bumpStats
  by_cases hp : r.isPhishing = true
  · simp [hp]
  · by_cases hr : r.riskScore < 30
    · simp [hp, hr]
    · simp [hp, hr]

theorem Stats.le_refl (st : Stats) : Stats.le st st :=
  ⟨Nat.le_refl _, Nat.le_refl _, Nat.le_refl _⟩

theorem analyzeUrl_stats_le (env : Env) (url : String) (s : Session) :
    Stats.le s.stats (analyzeUrl env url s).2.stats := by
  rcases analyzeUrl_stats env url s with h | ⟨r, h⟩
  · rw [h]; exact Stats.le_refl _
  · rw [h]; exact Stats.le_bumpStats r _

/-- C12. For every analysis result with `isPhishing` true, the title chosen by
`displayAnalysisResult` is `Threat Detected`, whatever the risk score. -/
theorem displayAnalysisResult_threat_title (env : Env) (result : AnalysisResult) (s : Session)
    (h : result.isPhishing = true) :
    (displayAnalysisResult env result s).view.resultTitle = "Threat Detected" := by
  simp [displayAnalysisResult, resultTitleOf, h]

/-- C12 at a phishing result with risk score 5. -/
theorem displayAnalysisResult_threat_title_witness :
    (displayAnalysisResult offlineEnv (plainResult true 5) newSession).view.resultTitle
      = "Threat Detected" :=
  displayAnalysisResult_threat_title offlineEnv (plainResult true 5) newSession rfl

/-- The outcome of `analyzeManualUrl` for an input that passes both guards, is
not cached and is answered with a result. -/
theorem analyzeManualUrl_of_result (parseUrl : String → Option ParsedUrl) (env : Env)
    (s : Session) (status : Nat) (r : AnalysisResult)
    (hne : jsTrim s.view.urlInput ≠ "")
    (hvalid : isValidHttpUrl parseUrl (jsTrim s.view.urlInput) = true)
    (hmiss : mapHas s.analysisCache (jsTrim s.view.urlInput) = false)
    (hf : env.fetchOutcome = .response status (.value r)) (hok : responseOk status = true) :
    (analyzeManualUrl parseUrl env s).stats = bumpStats r s.stats ∧
      (analyzeManualUrl parseUrl env s).view.resultTitle = resultTitleOf r ∧
      (analyzeManualUrl parseUrl env s).view.threatList = r.threats.getD [] := by
  have hc : mapGet (setAnalyzeButtonLoading true s).analysisCache (jsTrim s.view.urlInput)
      = none := mapGet_eq_none_of_not_mapHas _ _ hmiss
  obtain ⟨s2, hst, _, _, _, heq⟩ :=
    analyzeUrl_of_miss env (jsTrim s.view.urlInput) (setAnalyzeButtonLoading true s) hc
  rw [analyzeTry_of_ok env _ s2 status r hf hok] at heq
  simp only [analyzeManualUrl, hne, hvalid, if_false, Bool.not_true, Bool.false_eq_true, heq]
  refine ⟨?_, rfl, rfl⟩
  show (updateStats env r _).stats = _
  rw [updateStats_stats]
  show bumpStats r s2.stats = _
  rw [hst]
  rfl

/-- C13. End to end: for a valid http(s) URL that is not in the cache and for
which the service answers with a result that is not phishing and has a risk
score below 30, `analyzeManualUrl` adds one to `totalChecks` and to `safeUrls`,
leaves `threatsBlocked` and renders the title `Safe URL`. -/
theorem analyzeManualUrl_safe_result (parseUrl : String → Option ParsedUrl) (env : Env)
    (s : Session) (status : Nat) (r : AnalysisResult)
    (hne : jsTrim s.view.urlInput ≠ "")
    (hvalid : isValidHttpUrl parseUrl (jsTrim s.view.urlInput) = true)
    (hmiss : mapHas s.analysisCache (jsTrim s.view.urlInput) = false)
    (hf : env.fetchOutcome = .response status (.value r)) (hok : responseOk status = true)
    (hp : r.isPhishing = false) (hr : r.riskScore < 30) :
    (analyzeManualUrl parseUrl env s).stats.totalChecks = s.stats.totalChecks + 1 ∧
      (analyzeManualUrl parseUrl env s).stats.safeUrls = s.stats.safeUrls + 1 ∧
      (analyzeManualUrl parseUrl env s).stats.threatsBlocked = s.stats.threatsBlocked ∧
      (analyzeManualUrl parseUrl env s).view.resultTitle = "Safe URL" := by
  obtain ⟨h1, h2, _⟩ := analyzeManualUrl_of_result parseUrl env s status r hne hvalid hmiss hf hok
  rw [h1, h2]
  have hr' : ¬ r.riskScore > 30 := by omega
  simp [bumpStats, resultTitleOf, hp, hr, hr']

/-- C13 at `http://example.com`, answered with a result that is not phishing
and has risk score 10. -/
theorem analyzeManualUrl_safe_result_witness :
    (analyzeManualUrl exampleParseUrl (onlineEnv (plainResult false 10))
        (typedSession "http://example.com")).stats.totalChecks = 0 + 1 ∧
      (analyzeManualUrl exampleParseUrl (onlineEnv (plainResult false 10))
        (typedSession "http://example.com")).stats.safeUrls = 0 + 1 ∧
      (analyzeManualUrl exampleParseUrl (onlineEnv (plainResult false 10))
        (typedSession "http://example.com")).stats.threatsBlocked = 0 ∧
      (analyzeManualUrl exampleParseUrl (onlineEnv (plainResult false 10))
        (typedSession "http://example.com")).view.resultTitle = "Safe URL" :=
  analyzeManualUrl_safe_result exampleParseUrl (onlineEnv (plainResult false 10))
    (typedSession "http://example.com") 200 (plainResult false 10)
    (by decide) (by decide) (by decide) rfl (by decide) rfl (by decide)

/-- C14. End to end: for a valid http(s) URL that is not in the cache and for
which the service answers with a phishing result, `analyzeManualUrl` adds
exactly one to `threatsBlocked`, and the rendered threat list is the list of
the entries of `result.threats`, in the same order, whatever was rendered
before. -/
theorem analyzeManualUrl_phishing_result (parseUrl : String → Option ParsedUrl) (env : Env)
    (s : Session) (status : Nat) (r : AnalysisResult)
    (hne : jsTrim s.view.urlInput ≠ "")
    (hvalid : isValidHttpUrl parseUrl (jsTrim s.view.urlInput) = true)
    (hmiss : mapHas s.analysisCache (jsTrim s.view.urlInput) = false)
    (hf : env.fetchOutcome = .response status (.value r)) (hok : responseOk status = true)
    (hp : r.isPhishing = true) :
    (analyzeManualUrl parseUrl env s).stats.threatsBlocked = s.stats.threatsBlocked + 1 ∧
      (analyzeManualUrl parseUrl env s).view.threatList = r.threats.getD [] := by
  obtain ⟨h1, _, h3⟩ := analyzeManualUrl_of_result parseUrl env s status r hne hvalid hmiss hf hok
  rw [h1, h3]
  simp [bumpStats, hp]

/-- C14 at `https://evil.test`, answered with the phishing result whose threats
are `["blacklist match"]`, in a session that shows two older threats. -/
theorem analyzeManualUrl_phishing_result_witness :
    (analyzeManualUrl evilParseUrl (onlineEnv blacklistMatchResult)
        staleSession).stats.threatsBlocked = 0 + 1 ∧
      (analyzeManualUrl evilParseUrl (onlineEnv blacklistMatchResult)
        staleSession).view.threatList = ["blacklist match"] :=
  analyzeManualUrl_phishing_result evilParseUrl (onlineEnv blacklistMatchResult) staleSession
    200 blacklistMatchResult (by decide) (by decide) (by decide) rfl (by decide) rfl

theorem setAnalyzeButtonLoading_stats (b : Bool) (s : Session) :
    (setAnalyzeButtonLoading b s).stats = s.stats := by
  cases b <;> rfl

/-- C15. Each of the counters `totalChecks`, `threatsBlocked` and `safeUrls` is
monotonically non-decreasing: none is smaller after `updateStats`, after
`analyzeUrl` or after `analyzeManualUrl` than before. -/
theorem stats_monotone :
    (∀ (env : Env) (result : AnalysisResult) (s : Session),
      Stats.le s.stats (updateStats env result s).stats) ∧
    (∀ (env : Env) (url : String) (s : Session),
      Stats.le s.stats (analyzeUrl env url s).2.stats) ∧
    (∀ (parseUrl : String → Option ParsedUrl) (env : Env) (s : Session),
      Stats.le s.stats (analyzeManualUrl parseUrl env s).stats) := by
  refine ⟨fun env result s => ?_, analyzeUrl_stats_le, fun parseUrl env s => ?_⟩
  · rw [updateStats_stats]
    exact Stats.le_bumpStats result s.stats
  · unfold analyzeManualUrl
    by_cases h1 : jsTrim s.view.urlInput = ""
    · simp only [h1, if_true]
      exact Stats.le_refl _
    · by_cases h2 : isValidHttpUrl parseUrl (jsTrim s.view.urlInput) = true
      · simp only [h1, h2, if_false, Bool.not_true, Bool.false_eq_true]
        have key := analyzeUrl_stats_le env (jsTrim s.view.urlInput)
          (setAnalyzeButtonLoading true s)
        rw [setAnalyzeButtonLoading_stats] at key
        rcases ht : analyzeUrl env (jsTrim s.view.urlInput) (setAnalyzeButtonLoading true s)
          with ⟨res, s1⟩
        rw [ht] at key
        cases res with
        | error e => exact key
        | ok r => exact key
      · have h2' : isValidHttpUrl parseUrl (jsTrim s.view.urlInput) = false := by
          simpa using h2
        simp only [h1, h2', if_false, Bool.not_false, if_true]
        exact Stats.le_refl _

/-- C16. When the analyze request fails, by a transport error or by a response
with a status outside 200-299, `analyzeUrl` fails with one fixed error, the
same for every cause and status, and `analyzeManualUrl` leaves the analyze
button enabled, with its content shown and its spinner hidden. -/
theorem analyzeUrl_request_failed (parseUrl : String → Option ParsedUrl) (env : Env) :
    (∀ (url : String) (s : Session), mapHas s.analysisCache url = false →
      requestFailed env.fetchOutcome = true →
      (analyzeUrl env url s).1 = .error analysisFailedMessage) ∧
    (∀ s : Session, jsTrim s.view.urlInput ≠ "" →
      isValidHttpUrl parseUrl (jsTrim s.view.urlInput) = true →
      mapHas s.analysisCache (jsTrim s.view.urlInput) = false →
      requestFailed env.fetchOutcome = true →
      (analyzeManualUrl parseUrl env s).view.analyzeBtnDisabled = false ∧
      (analyzeManualUrl parseUrl env s).view.btnContentShown = true ∧
      (analyzeManualUrl parseUrl env s).view.btnSpinnerShown = false ∧
      (analyzeManualUrl parseUrl env s).view.inputErrors
        = s.view.inputErrors ++ ["Analysis failed. Please try again."]) := by
  have h1 : ∀ (url : String) (s : Session), mapHas s.analysisCache url = false →
      requestFailed env.fetchOutcome = true →
      ∃ s3, s3.view.inputErrors = s.view.inputErrors ∧
        analyzeUrl env url s = (.error analysisFailedMessage, s3) := by
    intro url s hmiss hfail
    obtain ⟨s2, _, _, hv, _, heq⟩ :=
      analyzeUrl_of_miss env url s (mapGet_eq_none_of_not_mapHas _ _ hmiss)
    obtain ⟨e, he⟩ := analyzeTry_of_failed env url s2 hfail
    rw [he] at heq
    exact ⟨s2, by rw [hv], heq⟩
  refine ⟨fun url s hmiss hfail => ?_, fun s hne hvalid hmiss hfail => ?_⟩
  · obtain ⟨s3, _, heq⟩ := h1 url s hmiss hfail
    rw [heq]
  · obtain ⟨s3, hie, heq⟩ :=
      h1 (jsTrim s.view.urlInput) (setAnalyzeButtonLoading true s) hmiss hfail
    simp only [analyzeManualUrl, hne, hvalid, if_false, Bool.not_true, Bool.false_eq_true, heq]
    refine ⟨rfl, rfl, rfl, ?_⟩
    show s3.view.inputErrors ++ _ = _
    rw [hie]
    rfl

/-- C16 at `http://example.com`: offline and under status 503 `analyzeUrl`
fails with the same error, and after `analyzeManualUrl` under status 503 the
button is enabled. -/
theorem analyzeUrl_request_failed_witness :
    (analyzeUrl offlineEnv "http://example.com" newSession).1 = .error analysisFailedMessage ∧
    (analyzeUrl (statusEnv 503) "http://example.com" newSession).1
      = .error analysisFailedMessage ∧
    (analyzeManualUrl exampleParseUrl (statusEnv 503)
      (typedSession "http://example.com")).view.analyzeBtnDisabled = false :=
  ⟨(analyzeUrl_request_failed exampleParseUrl offlineEnv).1 "http://example.com" newSession
      (by decide) (by decide),
   (analyzeUrl_request_failed exampleParseUrl (statusEnv 503)).1 "http://example.com" newSession
      (by decide) (by decide),
   ((analyzeUrl_request_failed exampleParseUrl (statusEnv 503)).2
      (typedSession "http://example.com") (by decide) (by decide) (by decide) (by decide)).1⟩

/-- C17. For every URL that is not in the cache, one call of `analyzeUrl` adds
exactly one request to the log, a request for that URL to the analyze endpoint,
whether the request succeeds or fails. -/
theorem analyzeUrl_one_request (env : Env) (url : String) (s : Session)
    (hmiss : mapHas s.analysisCache url = false) :
    ∃ req : AnalyzeRequest, req.endpoint = s.apiUrl ++ "/analyze" ∧ req.url = url ∧
      (analyzeUrl env url s).2.requests = s.requests ++ [req] := by
  obtain ⟨s2, _, _, _, hreq, heq⟩ :=
    analyzeUrl_of_miss env url s (mapGet_eq_none_of_not_mapHas _ _ hmiss)
  refine ⟨{ endpoint := s.apiUrl ++ "/analyze", url := url,
            sensitivity := sensitivityOf (getSettings s),
            userId := (getUserId env s).1 }, rfl, rfl, ?_⟩
  have key := analyzeTry_requests env url s2
  rw [heq]
  rcases ht : analyzeTry env url s2 with ⟨res, s3⟩
  rw [ht] at key
  cases res with
  | error e => exact key.trans hreq
  | ok r => exact key.trans hreq

/-- C17 at `http://example.com` in the new session: one request in the log
after a failed call and after a successful call. -/
theorem analyzeUrl_one_request_witness :
    (∃ req : AnalyzeRequest, req.endpoint = newSession.apiUrl ++ "/analyze" ∧
      req.url = "http://example.com" ∧
      (analyzeUrl offlineEnv "http://example.com" newSession).2.requests = [] ++ [req]) ∧
    (∃ req : AnalyzeRequest, req.endpoint = newSession.apiUrl ++ "/analyze" ∧
      req.url = "http://example.com" ∧
      (analyzeUrl (onlineEnv (plainResult false 10)) "http://example.com"
        newSession).2.requests = [] ++ [req]) :=
  ⟨analyzeUrl_one_request offlineEnv "http://example.com" newSession (by decide),
   analyzeUrl_one_request (onlineEnv (plainResult false 10)) "http://example.com" newSession
     (by decide)⟩

/-! ## Local validation -/

/-- C11. An input rejected by local validation sends nothing to the network:
`analyzeManualUrl` on an input that is empty after trimming or that
`isValidHttpUrl` rejects, and `addToWhitelist` and `addToBlacklist` on a domain
that is empty or that `isValidDomain` rejects, leave the log of analyze
requests and the log of list requests as they were. -/
theorem local_rejection_sends_nothing (parseUrl : String → Option ParsedUrl)
    (toLowerCase : String → String) (env : Env) (out : ListFetch) :
    (∀ s : Session,
      (jsTrim s.view.urlInput = "" ∨ isValidHttpUrl parseUrl (jsTrim s.view.urlInput) = false) →
      (analyzeManualUrl parseUrl env s).requests = s.requests) ∧
    (∀ st : ManagerState,
      (toLowerCase (jsTrim st.whitelistInput) = "" ∨
        isValidDomain (toLowerCase (jsTrim st.whitelistInput)) = false) →
      (addToWhitelist toLowerCase env out st).listRequests = st.listRequests ∧
      (addToWhitelist toLowerCase env out st).session.requests = st.session.requests) ∧
    (∀ st : ManagerState,
      (toLowerCase (jsTrim st.blacklistInput) = "" ∨
        isValidDomain (toLowerCase (jsTrim st.blacklistInput)) = false) →
      (addToBlacklist toLowerCase env out st).listRequests = st.listRequests ∧
      (addToBlacklist toLowerCase env out st).session.requests = st.session.requests) := by
  refine ⟨fun s h => ?_, fun st h => ?_, fun st h => ?_⟩
  · unfold analyzeManualUrl
    by_cases h1 : jsTrim s.view.urlInput = ""
    · simp only [h1, if_true]; rfl
    · have h2 : isValidHttpUrl parseUrl (jsTrim s.view.urlInput) = false := by
        rcases h with h | h
        · exact absurd h h1
        · exact h
      simp only [h1, h2, if_false, Bool.not_false, if_true]; rfl
  · unfold addToWhitelist
    by_cases h1 : toLowerCase (jsTrim st.whitelistInput) = ""
    · simp only [h1, if_true]; exact ⟨rfl, rfl⟩
    · have h2 : isValidDomain (toLowerCase (jsTrim st.whitelistInput)) = false := by
        rcases h with h | h
        · exact absurd h h1
        · exact h
      simp only [h1, h2, if_false, Bool.not_false, if_true]; exact ⟨rfl, rfl⟩
  · unfold addToBlacklist
    by_cases h1 : toLowerCase (jsTrim st.blacklistInput) = ""
    · simp only [h1, if_true]; exact ⟨rfl, rfl⟩
    · have h2 : isValidDomain (toLowerCase (jsTrim st.blacklistInput)) = false := by
        rcases h with h | h
        · exact absurd h h1
        · exact h
      simp only [h1, h2, if_false, Bool.not_false, if_true]; exact ⟨rfl, rfl⟩

theorem isValidDomain_not_a_domain : isValidDomain "not a domain" = false := by
  unfold isValidDomain
  rw [← Bool.not_eq_true, rmatch_domainRegex_iff]
  intro h
  obtain ⟨labels, tld, hne, _, _, hs⟩ := h.pieces
  have e : splitDots "not a domain".toList = ["not a domain".toList] := by decide
  rw [e] at hs
  cases labels with
  | nil => exact hne rfl
  | cons l ls =>
    have := congrArg List.length hs
    simp at this

/-- C11 at a blank URL input, a blank whitelist input and the blacklist input
`Not A Domain`: no request is in either log afterwards. -/
theorem local_rejection_sends_nothing_witness :
    (analyzeManualUrl exampleParseUrl offlineEnv (typedSession "  ")).requests = [] ∧
    (addToWhitelist asciiLowerCase offlineEnv .transportError (typedManager "  ")).listRequests
      = [] ∧
    (addToBlacklist asciiLowerCase offlineEnv .transportError
      (typedManager " Not A Domain ")).listRequests = [] :=
  ⟨(local_rejection_sends_nothing exampleParseUrl asciiLowerCase offlineEnv .transportError).1
      (typedSession "  ") (Or.inl (by decide)),
   ((local_rejection_sends_nothing exampleParseUrl asciiLowerCase offlineEnv
      .transportError).2.1 (typedManager "  ") (Or.inl (by decide))).1,
   ((local_rejection_sends_nothing exampleParseUrl asciiLowerCase offlineEnv
      .transportError).2.2 (typedManager " Not A Domain ")
      (Or.inr ((by decide : asciiLowerCase (jsTrim " Not A Domain ") = "not a domain") ▸
        isValidDomain_not_a_domain))).1⟩

/-! ## Template cache -/

theorem mapGet_map_set_ne {α : Type} (m : List (String × α)) (k k' : String) (v : α)
    (hne : k ≠ k') :
    mapGet (m.map (fun e => if (e.1 == k) = true then (k, v) else e)) k' = mapGet m k' := by
  induction m with
  | nil => rfl
  | cons e m ih =>
    rw [List.map_cons, mapGet_cons, mapGet_cons, ih]
    by_cases he : e.1 = k
    · have hb : (e.1 == k) = true := by simpa using he
      simp only [hb, if_true]
      rw [if_neg hne, if_neg (by rw [he]; exact hne)]
    · have hb : (e.1 == k) = false := by simpa using he
      simp only [hb, if_false, Bool.false_eq_true]

theorem mapGet_append_ne {α : Type} (m : List (String × α)) (k k' : String) (v : α)
    (hne : k ≠ k') : mapGet (m ++ [(k, v)]) k' = mapGet m k' := by
  induction m with
  | nil => simp [mapGet_cons, mapGet, hne]
  | cons e m ih => rw [List.cons_append, mapGet_cons, mapGet_cons, ih]

theorem mapGet_mapSet_ne {α : Type} (m : List (String × α)) (k k' : String) (v : α)
    (hne : k ≠ k') : mapGet (mapSet m k v) k' = mapGet m k' := by
  unfold mapSet
  split
  · exact mapGet_map_set_ne m k k' v hne
  · exact mapGet_append_ne m k k' v hne

theorem loadTemplate_of_cached (out : TemplateFetch) (name : String) (tm : TemplateManager)
    (body : String) (h : mapGet tm.templateCache name = some body) :
    loadTemplate out name tm = (.ok body, tm) := by
  simp [loadTemplate, h]

/-- A call of `loadTemplate` keeps every entry of the cache. -/
theorem loadTemplate_keeps (out : TemplateFetch) (name : String) (tm : TemplateManager)
    (n b : String) (h : mapGet tm.templateCache n = some b) :
    mapGet (loadTemplate out name tm).2.templateCache n = some b := by
  cases hc : mapGet tm.templateCache name with
  | some body => rw [loadTemplate_of_cached out name tm body hc]; exact h
  | none =>
    have hne : name ≠ n := by
      rintro rfl
      rw [hc] at h
      exact absurd h (by simp)
    unfold loadTemplate
    simp only [hc]
    cases out with
    | transportError => exact h
    | response ok text =>
      cases ok with
      | false => exact h
      | true =>
        cases text with
        | none => exact h
        | some content =>
          simp only [if_true]
          rw [mapGet_mapSet_ne _ _ _ _ hne]
          exact h

/-- A successful call of `loadTemplate` leaves the body it returns in the
cache. -/
theorem loadTemplate_ok_cached (out : TemplateFetch) (name : String) (tm : TemplateManager)
    (body : String) (h : (loadTemplate out name tm).1 = .ok body) :
    mapGet (loadTemplate out name tm).2.templateCache name = some body := by
  cases hc : mapGet tm.templateCache name with
  | some b =>
    rw [loadTemplate_of_cached out name tm b hc] at h ⊢
    simp only [Except.ok.injEq] at h
    rw [← h]; exact hc
  | none =>
    unfold loadTemplate at h ⊢
    simp only [hc] at h ⊢
    cases out with
    | transportError => simp at h
    | response ok text =>
      cases ok with
      | false => simp at h
      | true =>
        cases text with
        | none => simp at h
        | some content =>
          simp only [if_true, Except.ok.injEq] at h ⊢
          rw [← h]
          exact mapGet_mapSet _ _ _

theorem render_cache (out : TemplateFetch) (name : String) (data : List (String × String))
    (tm : TemplateManager) : (render out name data tm).2 = (loadTemplate out name tm).2 := by
  unfold render
  rcases loadTemplate out name tm with ⟨res, tm1⟩
  cases res <;> rfl

theorem runTemplateOp_keeps (op : TemplateOp) (tm : TemplateManager) (n b : String)
    (h : mapGet tm.templateCache n = some b) :
    mapGet (runTemplateOp op tm).templateCache n = some b := by
  cases op with
  | load name out => exact loadTemplate_keeps out name tm n b h
  | render name data out =>
    show mapGet (render out name data tm).2.templateCache n = some b
    rw [render_cache]
    exact loadTemplate_keeps out name tm n b h

theorem runTemplateOps_keeps (ops : List TemplateOp) (tm : TemplateManager) (n b : String)
    (h : mapGet tm.templateCache n = some b) :
    mapGet (runTemplateOps ops tm).templateCache n = some b := by
  induction ops generalizing tm with
  | nil => exact h
  | cons op ops ih => exact ih (runTemplateOp op tm) (runTemplateOp_keeps op tm n b h)

/-- C18. After a successful `loadTemplate(name)`, every later
`loadTemplate(name)` on the same template manager, after any calls of
`loadTemplate` and `render` and no `clearCache`, returns the same body and
fetches nothing; and a call of `loadTemplate` or `render` never changes the
body cached for a name. -/
theorem loadTemplate_cached_for_good (out : TemplateFetch) (name : String)
    (tm : TemplateManager) (body : String) (h : (loadTemplate out name tm).1 = .ok body) :
    (∀ (ops : List TemplateOp) (out' : TemplateFetch),
      (loadTemplate out' name (runTemplateOps ops (loadTemplate out name tm).2)).1 = .ok body ∧
      (loadTemplate out' name (runTemplateOps ops (loadTemplate out name tm).2)).2.fetched
        = (runTemplateOps ops (loadTemplate out name tm).2).fetched) ∧
    (∀ (op : TemplateOp) (t : TemplateManager) (n b : String),
      mapGet t.templateCache n = some b → mapGet (runTemplateOp op t).templateCache n = some b) := by
  refine ⟨fun ops out' => ?_, fun op t n b hb => runTemplateOp_keeps op t n b hb⟩
  have hc := runTemplateOps_keeps ops _ name body (loadTemplate_ok_cached out name tm body h)
  rw [loadTemplate_of_cached out' name _ body hc]
  exact ⟨rfl, rfl⟩

/-- C18 at the template `history-item`: fetched once, then other templates are
loaded and rendered, one of them failing, and the next load is served from the
cache while offline. -/
theorem loadTemplate_cached_for_good_witness :
    (loadTemplate .transportError "history-item"
      (runTemplateOps
        [.load "settings-view" (.response false none),
         .render "history-item" [("riskScore", "10")] .transportError,
         .load "whitelist-item" (.response true (some "<div>\x7b\x7bdomain\x7d\x7d</div>"))]
        (loadTemplate (.response true (some "<li>\x7b\x7briskScore\x7d\x7d</li>"))
          "history-item" newTemplateManager).2)).1
      = .ok "<li>\x7b\x7briskScore\x7d\x7d</li>" :=
  ((loadTemplate_cached_for_good (.response true (some "<li>\x7b\x7briskScore\x7d\x7d</li>"))
      "history-item" newTemplateManager "<li>\x7b\x7briskScore\x7d\x7d</li>" rfl).1
    [.load "settings-view" (.response false none),
     .render "history-item" [("riskScore", "10")] .transportError,
     .load "whitelist-item" (.response true (some "<div>\x7b\x7bdomain\x7d\x7d</div>"))]
    .transportError).1

/-! ## Elements from templates -/

theorem firstElementChild_eq_head (ns : List DomNode) :
    firstElementChild ns = (elementChildren ns).head? := by
  induction ns with
  | nil => rfl
  | cons n ns ih =>
    cases n with
    | element markup => rfl
    | text content => simpa [firstElementChild, elementChildren] using ih
    | comment content => simpa [firstElementChild, elementChildren] using ih

/-- C20, as stated, fails: for a template whose markup has two top-level
elements `createElementFromTemplate` returns the first of them, and for an
empty template it returns `null`; neither call fails. -/
theorem createElementFromTemplate_without_single_root :
    (elementChildren (exampleParseHtml (jsTrim (interpolate "<p>a</p><p>b</p>" [])))
        = ["<p>a</p>", "<p>b</p>"] ∧
      (createElementFromTemplate exampleParseHtml .transportError "pair" []
        exampleTemplateManager).1 = .ok (some "<p>a</p>")) ∧
    (elementChildren (exampleParseHtml (jsTrim (interpolate "" []))) = [] ∧
      (createElementFromTemplate exampleParseHtml .transportError "blank" []
        exampleTemplateManager).1 = .ok none) :=
  ⟨⟨by decide, rfl⟩, ⟨by decide, rfl⟩⟩

/-- C20, amended. `createElementFromTemplate(name, data)` fails exactly when
loading the template fails, with the error of `loadTemplate`.  When the template
loads, the call does not fail on the structure of the markup: it returns the
first top-level element of the rendered, trimmed markup, whatever follows it,
and `null` when the markup has no element. -/
theorem createElementFromTemplate_result (parseHtml : String → List DomNode)
    (out : TemplateFetch) (name : String) (data : List (String × String))
    (tm : TemplateManager) :
    (∀ e, (createElementFromTemplate parseHtml out name data tm).1 = .error e ↔
      (loadTemplate out name tm).1 = .error e) ∧
    (∀ body, (loadTemplate out name tm).1 = .ok body →
      (createElementFromTemplate parseHtml out name data tm).1
        = .ok (elementChildren (parseHtml (jsTrim (interpolate body data)))).head?) := by
  unfold createElementFromTemplate render
  rcases loadTemplate out name tm with ⟨res, tm1⟩
  cases res with
  | error e' => exact ⟨fun e => by simp, fun body h => by simp at h⟩
  | ok template =>
    refine ⟨fun e => by simp, fun body h => ?_⟩
    simp only [Except.ok.injEq] at h
    subst h
    simp only [firstElementChild_eq_head]

/-- The amended C20 at a template with a single element between blanks: the
element is returned. -/
theorem createElementFromTemplate_result_witness :
    (createElementFromTemplate exampleParseHtml .transportError "single" []
      exampleTemplateManager).1 = .ok (some "<p>a</p>") :=
  (createElementFromTemplate_result exampleParseHtml .transportError "single" []
    exampleTemplateManager).2 " <p>a</p>\n" rfl

/-! ## Views whose template fails to load -/

set_option maxRecDepth 100000 in
theorem idsOf_settingsFallback : idsOf settingsFallback = ["backBtn"] := by decide

set_option maxRecDepth 100000 in
theorem idsOf_whitelistFallback : idsOf whitelistFallback = ["backToSettingsBtn"] := by decide

set_option maxRecDepth 100000 in
theorem idsOf_blacklistFallback : idsOf blacklistFallback = ["backToSettingsBtn"] := by decide

set_option maxRecDepth 100000 in
theorem idsOf_historyFallback : idsOf historyFallback = ["backBtn"] := by decide

theorem showView_of_failed (templateName fallback : String)
    (setup : List String → Except String Unit) (out : TemplateFetch) (outside : List String)
    (tm : TemplateManager) (e : String) (h : (loadTemplate out templateName tm).1 = .error e) :
    (showView templateName fallback setup out outside tm).1
      = setup (outside ++ idsOf fallback) := by
  unfold showView replaceContent render
  generalize loadTemplate out templateName tm = r at h ⊢
  rcases r with ⟨res, tm1⟩
  cases res with
  | error e' => rfl
  | ok body => simp at h

theorem addListeners_back_then_missing (outside : List String) (back missing : String)
    (rest : List String) (hm : missing ∉ outside) (hne : missing ≠ back) :
    addListeners (outside ++ [back]) (back :: missing :: rest)
      = .error ("Cannot read properties of null (reading 'addEventListener'): " ++ missing) := by
  have h1 : (outside ++ [back]).contains back = true := by simp
  have h2 : (outside ++ [back]).contains missing = false := by
    simp [hm, hne]
  rw [addListeners, if_pos h1, addListeners, if_neg (by rw [h2]; exact Bool.false_ne_true)]

/-- C19 fails on the code.  When the template of a view fails to load, the
fallback markup holds the id of the back button alone, and the wiring routine
of the view, called next, throws a `TypeError` at its second lookup: at
`detectionSensitivity` in the Settings view, `addWhitelistBtn` in the Whitelist
view, `addBlacklistBtn` in the Blacklist view and `filterType` in the History
view, whenever no element outside the container has that id. -/
theorem fallback_wiring_throws (out : TemplateFetch) (outside : List String)
    (tm : TemplateManager) :
    (∀ e, (loadTemplate out "settings-view" tm).1 = .error e →
      "detectionSensitivity" ∉ outside →
      (showSettingsView out outside tm).1 = .error
        "Cannot read properties of null (reading 'addEventListener'): detectionSensitivity") ∧
    (∀ e, (loadTemplate out "whitelist-manager" tm).1 = .error e →
      "addWhitelistBtn" ∉ outside →
      (showWhitelistManager out outside tm).1 = .error
        "Cannot read properties of null (reading 'addEventListener'): addWhitelistBtn") ∧
    (∀ e, (loadTemplate out "blacklist-manager" tm).1 = .error e →
      "addBlacklistBtn" ∉ outside →
      (showBlacklistManager out outside tm).1 = .error
        "Cannot read properties of null (reading 'addEventListener'): addBlacklistBtn") ∧
    (∀ e, (loadTemplate out "history-view" tm).1 = .error e →
      "filterType" ∉ outside →
      (showHistoryView out outside tm).1 = .error
        "Cannot read properties of null (reading 'addEventListener'): filterType") := by
  refine ⟨fun e h hm => ?_, fun e h hm => ?_, fun e h hm => ?_, fun e h hm => ?_⟩
  · unfold showSettingsView
    rw [showView_of_failed _ _ _ out outside tm e h, idsOf_settingsFallback]
    exact addListeners_back_then_missing outside _ _ _ hm (by decide)
  · unfold showWhitelistManager
    rw [showView_of_failed _ _ _ out outside tm e h, idsOf_whitelistFallback]
    exact addListeners_back_then_missing outside _ _ _ hm (by decide)
  · unfold showBlacklistManager
    rw [showView_of_failed _ _ _ out outside tm e h, idsOf_blacklistFallback]
    exact addListeners_back_then_missing outside _ _ _ hm (by decide)
  · unfold showHistoryView
    rw [showView_of_failed _ _ _ out outside tm e h, idsOf_historyFallback]
    exact addListeners_back_then_missing outside _ _ _ hm (by decide)

/-- The failure of C19 when the template `settings-view` is answered with a
status that is not ok, in a document whose other elements are the four footer
buttons. -/
theorem fallback_wiring_throws_witness :
    (showSettingsView (.response false none) ["historyBtn", "settingsBtn", "reportBtn", "helpBtn"]
      newTemplateManager).1 = .error
        "Cannot read properties of null (reading 'addEventListener'): detectionSensitivity" :=
  (fallback_wiring_throws (.response false none)
    ["historyBtn", "settingsBtn", "reportBtn", "helpBtn"] newTemplateManager).1
    "Failed to load template: settings-view" rfl (by decide)

/-! ## User id -/

theorem getUserId_of_stored (env : Env) (s : Session) (id : String)
    (h : s.storedUserId = some id) (hne : id ≠ "") : getUserId env s = (id, s) := by
  simp [getUserId, h, hne]

theorem getUserId_stored (env : Env) (s : Session) (hfresh : env.freshUserId ≠ "") :
    (getUserId env s).2.storedUserId = some (getUserId env s).1 ∧ (getUserId env s).1 ≠ "" := by
  have hgen : getUserId env s
      = (env.freshUserId, { s with storedUserId := some env.freshUserId }) →
      (getUserId env s).2.storedUserId = some (getUserId env s).1 ∧
        (getUserId env s).1 ≠ "" := by
    intro e
    rw [e]
    exact ⟨rfl, hfresh⟩
  cases h : s.storedUserId with
  | none => exact hgen (by simp [getUserId, h])
  | some id =>
    by_cases hid : id = ""
    · exact hgen (by simp [getUserId, h, hid])
    · rw [getUserId_of_stored env s id h hid]
      exact ⟨h, hid⟩

/-! ## Title and risk level -/

/-- C22 fails on the code at risk score 30.  For a result that is not phishing
the title is `Safe URL` exactly when the score is at most 30, while
`getRiskLevel` is `safe` exactly when the score is below 30: at 30 the title
is `Safe URL` and the level is `warning`.  At every other score the two
agree. -/
theorem title_and_level_at_30 :
    ((displayAnalysisResult offlineEnv (plainResult false 30) newSession).view.resultTitle
        = "Safe URL" ∧
      getRiskLevel (plainResult false 30).riskScore = "warning" ∧
      (displayAnalysisResult offlineEnv (plainResult false 30) newSession).view.resultIconClass
        = "threat-status warning") ∧
    (∀ (env : Env) (result : AnalysisResult) (s : Session), result.isPhishing = false →
      result.riskScore ≠ 30 →
      ((displayAnalysisResult env result s).view.resultTitle = "Safe URL" ↔
        getRiskLevel result.riskScore = "safe") ∧
      ((displayAnalysisResult env result s).view.resultTitle = "Suspicious Activity" ↔
        (getRiskLevel result.riskScore = "warning" ∨
          getRiskLevel result.riskScore = "danger"))) := by
  refine ⟨by decide, fun env result s hp hne => ?_⟩
  have ht : (displayAnalysisResult env result s).view.resultTitle = resultTitleOf result := rfl
  rw [ht]
  unfold resultTitleOf getRiskLevel
  simp only [hp, Bool.false_eq_true, if_false]
  by_cases h70 : result.riskScore ≥ 70
  · have h30 : result.riskScore > 30 := by omega
    simp [h70, h30]
  · by_cases h30 : result.riskScore > 30
    · have h30' : result.riskScore ≥ 30 := by omega
      simp [h70, h30, h30']
    · have h30' : ¬ result.riskScore ≥ 30 := by omega
      simp [h70, h30, h30']

/-! ## What a call of analyzeUrl leaves unchanged -/

/-- C23. When the analyze request fails, by a transport error or by a response
with a status outside 200-299, `analyzeUrl` leaves the analysis cache and the
three counters exactly as they were. -/
theorem analyzeUrl_failed_frame (env : Env) (url : String) (s : Session)
    (hmiss : mapHas s.analysisCache url = false)
    (hfail : requestFailed env.fetchOutcome = true) :
    (analyzeUrl env url s).2.analysisCache = s.analysisCache ∧
      (analyzeUrl env url s).2.stats = s.stats := by
  obtain ⟨s2, hst, hca, _, _, heq⟩ :=
    analyzeUrl_of_miss env url s (mapGet_eq_none_of_not_mapHas _ _ hmiss)
  obtain ⟨e, he⟩ := analyzeTry_of_failed env url s2 hfail
  rw [he] at heq
  rw [heq]
  exact ⟨hca, hst⟩

/-- C23 at `http://example.com` under status 500, in a session whose cache
holds another URL and whose counters are not zero. -/
theorem analyzeUrl_failed_frame_witness :
    (analyzeUrl (statusEnv 500) "http://example.com"
      { newSession with
        analysisCache := [("http://other.test", plainResult false 10)],
        stats := { totalChecks := 4, threatsBlocked := 1, safeUrls := 2 } }).2.analysisCache
        = [("http://other.test", plainResult false 10)] ∧
    (analyzeUrl (statusEnv 500) "http://example.com"
      { newSession with
        analysisCache := [("http://other.test", plainResult false 10)],
        stats := { totalChecks := 4, threatsBlocked := 1, safeUrls := 2 } }).2.stats
        = { totalChecks := 4, threatsBlocked := 1, safeUrls := 2 } :=
  analyzeUrl_failed_frame (statusEnv 500) "http://example.com"
    { newSession with
      analysisCache := [("http://other.test", plainResult false 10)],
      stats := { totalChecks := 4, threatsBlocked := 1, safeUrls := 2 } }
    (by decide) (by decide)

/-- C24. When `analyzeUrl` is served from the cache it leaves the cache and
the three counters unchanged: the repeated analysis of a cached URL is not
counted. -/
theorem analyzeUrl_cached_frame (env : Env) (url : String) (s : Session)
    (h : mapHas s.analysisCache url = true) :
    (analyzeUrl env url s).2.analysisCache = s.analysisCache ∧
      (analyzeUrl env url s).2.stats = s.stats := by
  obtain ⟨r, hr⟩ := mapGet_isSome_of_mapHas _ _ h
  rw [analyzeUrl_of_cached env url s r hr]
  exact ⟨rfl, rfl⟩

/-- C24 at `http://example.com`, cached as a phishing result, while the
service would answer again. -/
theorem analyzeUrl_cached_frame_witness :
    (analyzeUrl (onlineEnv (plainResult true 90)) "http://example.com"
      { newSession with
        analysisCache := [("http://example.com", plainResult true 90)],
        stats := { totalChecks := 1, threatsBlocked := 1, safeUrls := 0 } }).2.analysisCache
        = [("http://example.com", plainResult true 90)] ∧
    (analyzeUrl (onlineEnv (plainResult true 90)) "http://example.com"
      { newSession with
        analysisCache := [("http://example.com", plainResult true 90)],
        stats := { totalChecks := 1, threatsBlocked := 1, safeUrls := 0 } }).2.stats
        = { totalChecks := 1, threatsBlocked := 1, safeUrls := 0 } :=
  analyzeUrl_cached_frame (onlineEnv (plainResult true 90)) "http://example.com"
    { newSession with
      analysisCache := [("http://example.com", plainResult true 90)],
      stats := { totalChecks := 1, threatsBlocked := 1, safeUrls := 0 } }
    (by decide)

/-! ## The invariant of the counters -/

theorem StatsInvariant.bumpStats (r : AnalysisResult) (st : Stats) (h : StatsInvariant st) :
    StatsInvariant (bumpStats r st) := by
  unfold StatsInvariant at h ⊢
  unfold Phisher.bumpStats
  by_cases hp : r.isPhishing = true
  · simp only [hp, if_true]
    omega
  · by_cases hr : r.riskScore < 30
    · simp only [hp, hr, if_true, if_false, Bool.false_eq_true]
      omega
    · simp only [hp, hr, if_false, Bool.false_eq_true]
      omega

theorem StatsInvariant.applyUpdates (calls : List (Env × AnalysisResult)) (s : Session)
    (h : StatsInvariant s.stats) : StatsInvariant (applyUpdates calls s).stats := by
  induction calls generalizing s with
  | nil => exact h
  | cons call calls ih =>
    show StatsInvariant (Phisher.applyUpdates calls (updateStats call.1 call.2 s)).stats
    apply ih
    rw [updateStats_stats]
    exact StatsInvariant.bumpStats _ _ h

/-- C25. `updateStats` preserves the invariant
`threatsBlocked + safeUrls ≤ totalChecks`; the invariant holds in every state
reached from all-zero counters by calls of `updateStats`; and a result that is
not phishing and has a risk score of 30 or more increments `totalChecks`
alone. -/
theorem updateStats_invariant :
    (∀ (env : Env) (result : AnalysisResult) (s : Session), StatsInvariant s.stats →
      StatsInvariant (updateStats env result s).stats) ∧
    (∀ (calls : List (Env × AnalysisResult)) (s : Session),
      s.stats = { totalChecks := 0, threatsBlocked := 0, safeUrls := 0 } →
      StatsInvariant (applyUpdates calls s).stats) ∧
    (∀ (env : Env) (result : AnalysisResult) (s : Session), result.isPhishing = false →
      30 ≤ result.riskScore →
      (updateStats env result s).stats
        = { s.stats with totalChecks := s.stats.totalChecks + 1 }) := by
  refine ⟨fun env result s h => ?_, fun calls s h0 => ?_, fun env result s hp hr => ?_⟩
  · rw [updateStats_stats]
    exact StatsInvariant.bumpStats _ _ h
  · apply StatsInvariant.applyUpdates
    rw [h0]
    exact Nat.le_refl 0
  · rw [updateStats_stats]
    have hr' : ¬ result.riskScore < 30 := by omega
    simp [bumpStats, hp, hr']

/-- C25 after three results in the new session: a threat, a safe URL and a
result that is neither. -/
theorem updateStats_invariant_witness :
    StatsInvariant (applyUpdates
      [(offlineEnv, plainResult true 90), (offlineEnv, plainResult false 10),
       (offlineEnv, plainResult false 50)] newSession).stats ∧
    (updateStats offlineEnv (plainResult false 50) newSession).stats
      = { totalChecks := 1, threatsBlocked := 0, safeUrls := 0 } :=
  ⟨updateStats_invariant.2.1
      [(offlineEnv, plainResult true 90), (offlineEnv, plainResult false 10),
       (offlineEnv, plainResult false 50)] newSession rfl,
   updateStats_invariant.2.2 offlineEnv (plainResult false 50) newSession rfl (by decide)⟩

/-! ## History view -/

/-- C26 fails on the code.  For a record whose confidence is present and not
zero the main view shows the confidence itself before the percent sign, and
the history row shows a hundred times the confidence: 93 gives `93%` in the
main view and `9300` for the row, and the two numbers differ for every
confidence other than zero. -/
theorem confidence_main_and_history :
    ((displayAnalysisResult offlineEnv confidentResult newSession).view.confidenceScore = "93%" ∧
      mapGet (historyItemData (fun d => d) confidentRecord) "confidence" = some "9300") ∧
    (∀ (env : Env) (toLocaleString : String → String) (r : HistoryRecord) (s : Session)
        (c : Int), r.analysis.confidence = some c → c ≠ 0 →
      (displayAnalysisResult env r.analysis s).view.confidenceScore = toString c ++ "%" ∧
      mapGet (historyItemData toLocaleString r) "confidence" = some (toString (c * 100)) ∧
      c * 100 ≠ c) := by
  refine ⟨by decide, fun env toLocaleString r s c hc hne => ⟨?_, ?_, by omega⟩⟩
  · simp [displayAnalysisResult, confidenceOf, hc, hne]
  · simp [historyItemData, mapGet, List.find?, historyConfidence, hc]

/-- C27. For every integer risk score the class of the history row agrees
with the risk level of the main view: `risk-low` exactly when the level is
`safe`, `risk-medium` exactly when it is `warning`, `risk-high` exactly when it
is `danger`. -/
theorem getHistoryRiskClass_matches_level (riskScore : Int) :
    (getHistoryRiskClass riskScore = "risk-low" ↔ getRiskLevel riskScore = "safe") ∧
    (getHistoryRiskClass riskScore = "risk-medium" ↔ getRiskLevel riskScore = "warning") ∧
    (getHistoryRiskClass riskScore = "risk-high" ↔ getRiskLevel riskScore = "danger") := by
  unfold getHistoryRiskClass getRiskLevel
  by_cases h30 : riskScore < 30
  · have a : ¬ riskScore ≥ 70 := by omega
    have b : ¬ riskScore ≥ 30 := by omega
    simp [h30, a, b]
  · by_cases h70 : riskScore < 70
    · have a : ¬ riskScore ≥ 70 := by omega
      have b : riskScore ≥ 30 := by omega
      simp [h30, h70, a, b]
    · have a : riskScore ≥ 70 := by omega
      simp [h30, h70, a]

theorem length_mk_append (l : List Char) (t : String) :
    (String.mk l ++ t).length = l.length + t.length := by
  rw [String.length_append]
  rfl

/-- C28. For every string `url` and every `maxLength` of at least 3,
`truncateHistoryUrl(url, maxLength)` has at most `maxLength` characters; it is
`url` itself when `url` has at most `maxLength` characters, and otherwise the
first `maxLength - 3` characters of `url` followed by `...`. -/
theorem truncateHistoryUrl_spec (url : String) (maxLength : Nat) (h : 3 ≤ maxLength) :
    (truncateHistoryUrl url maxLength).length ≤ maxLength ∧
    (url.length ≤ maxLength → truncateHistoryUrl url maxLength = url) ∧
    (maxLength < url.length →
      truncateHistoryUrl url maxLength
        = String.mk (url.toList.take (maxLength - 3)) ++ "...") := by
  unfold truncateHistoryUrl
  by_cases hl : url.length ≤ maxLength
  · rw [if_pos hl]
    exact ⟨hl, fun _ => rfl, fun hc => absurd hl (by omega)⟩
  · rw [if_neg hl]
    refine ⟨?_, fun hc => absurd hc hl, fun _ => rfl⟩
    rw [length_mk_append, List.length_take]
    have h3 : ("..." : String).length = 3 := rfl
    have hu : url.toList.length = url.length := rfl
    rw [h3, hu]
    omega

/-- C28 at a URL of 50 characters and the `maxLength` 45 of
`displayHistoryItems`: 42 characters and three dots. -/
theorem truncateHistoryUrl_spec_witness :
    (truncateHistoryUrl "http://example.com/aaaaaaaaaaaaaaaaaaaaaaaaaaaaaaa" 45).length ≤ 45 ∧
    truncateHistoryUrl "http://example.com/aaaaaaaaaaaaaaaaaaaaaaaaaaaaaaa" 45
      = "http://example.com/aaaaaaaaaaaaaaaaaaaaaaa..." ∧
    truncateHistoryUrl "http://example.com" 45 = "http://example.com" :=
  ⟨(truncateHistoryUrl_spec "http://example.com/aaaaaaaaaaaaaaaaaaaaaaaaaaaaaaa" 45
      (by decide)).1,
   (truncateHistoryUrl_spec "http://example.com/aaaaaaaaaaaaaaaaaaaaaaaaaaaaaaa" 45
      (by decide)).2.2 (by decide),
   (truncateHistoryUrl_spec "http://example.com" 45 (by decide)).2.1 (by decide)⟩

/-! ## Later calls in a session -/

theorem updateStats_storedUserId (env : Env) (r : AnalysisResult) (s : Session) :
    (updateStats env r s).storedUserId = s.storedUserId := by
  unfold updateStats updateStatsDisplay saveStats
  split <;> rfl

theorem analyzeTry_analysisCache (env : Env) (url : String) (s : Session) :
    (analyzeTry env url s).2.analysisCache = s.analysisCache ∨
      ∃ r, (analyzeTry env url s).2.analysisCache = mapSet s.analysisCache url r := by
  unfold analyzeTry
  cases env.fetchOutcome with
  | transportError => exact Or.inl rfl
  | response status body =>
    by_cases hok : responseOk status = true
    · cases body with
      | unparseable => simp [hok]
      | value result => exact Or.inr ⟨result, by simp [hok, updateStats_analysisCache]⟩
    · simp [hok]

theorem analyzeTry_storedUserId (env : Env) (url : String) (s : Session) :
    (analyzeTry env url s).2.storedUserId = s.storedUserId := by
  unfold analyzeTry
  cases env.fetchOutcome with
  | transportError => rfl
  | response status body =>
    by_cases hok : responseOk status = true
    · cases body with
      | unparseable => simp [hok]
      | value result => simp [hok, updateStats_storedUserId]
    · simp [hok]

/-- A call of `analyzeUrl` keeps every entry of the analysis cache. -/
theorem analyzeUrl_keeps (env : Env) (url : String) (s : Session) (k : String)
    (r : AnalysisResult) (h : mapGet s.analysisCache k = some r) :
    mapGet (analyzeUrl env url s).2.analysisCache k = some r := by
  cases hc : mapGet s.analysisCache url with
  | some r' => rw [analyzeUrl_of_cached env url s r' hc]; exact h
  | none =>
    have hne : url ≠ k := by
      rintro rfl
      rw [hc] at h
      exact absurd h (by simp)
    obtain ⟨s2, _, hca, _, _, heq⟩ := analyzeUrl_of_miss env url s hc
    have key := analyzeTry_analysisCache env url s2
    rw [heq]
    rcases ht : analyzeTry env url s2 with ⟨res, s3⟩
    rw [ht] at key
    have h3 : mapGet s3.analysisCache k = some r := by
      rcases key with key | ⟨r', key⟩
      · rw [key, hca]; exact h
      · rw [key, mapGet_mapSet_ne _ _ _ _ hne, hca]; exact h
    cases res with
    | error e => exact h3
    | ok r' => exact h3

/-- A call of `analyzeUrl` keeps a stored, non-empty user id. -/
theorem analyzeUrl_keeps_userId (env : Env) (url : String) (s : Session) (id : String)
    (h : s.storedUserId = some id) (hid : id ≠ "") :
    (analyzeUrl env url s).2.storedUserId = some id := by
  cases hc : mapGet s.analysisCache url with
  | some r => rw [analyzeUrl_of_cached env url s r hc]; exact h
  | none =>
    unfold analyzeUrl
    simp only [hc]
    generalize hs2 : ({ (getUserId env s).2 with
      requests := (getUserId env s).2.requests ++
        [{ endpoint := s.apiUrl ++ "/analyze", url := url,
           sensitivity := sensitivityOf (getSettings s),
           userId := (getUserId env s).1 }] } : Session) = s2
    have hv : s2.storedUserId = some id := by
      rw [← hs2, getUserId_of_stored env s id h hid]
      exact h
    have key := analyzeTry_storedUserId env url s2
    rcases ht : analyzeTry env url s2 with ⟨res, s3⟩
    rw [ht] at key
    cases res with
    | error e => simpa [hv] using key
    | ok r => simpa [hv] using key

theorem analyzeManualUrl_keeps (parseUrl : String → Option ParsedUrl) (env : Env)
    (s : Session) (k : String) (r : AnalysisResult) (h : mapGet s.analysisCache k = some r) :
    mapGet (analyzeManualUrl parseUrl env s).analysisCache k = some r := by
  unfold analyzeManualUrl
  by_cases h1 : jsTrim s.view.urlInput = ""
  · simp only [h1, if_true]
    exact h
  · by_cases h2 : isValidHttpUrl parseUrl (jsTrim s.view.urlInput) = true
    · simp only [h1, h2, if_false, Bool.not_true, Bool.false_eq_true]
      have key := analyzeUrl_keeps env (jsTrim s.view.urlInput)
        (setAnalyzeButtonLoading true s) k r h
      rcases ht : analyzeUrl env (jsTrim s.view.urlInput) (setAnalyzeButtonLoading true s)
        with ⟨res, s1⟩
      rw [ht] at key
      cases res with
      | error e => exact key
      | ok r' => exact key
    · have h2' : isValidHttpUrl parseUrl (jsTrim s.view.urlInput) = false := by
        simpa using h2
      simp only [h1, h2', if_false, Bool.not_false, if_true]
      exact h

theorem analyzeManualUrl_keeps_userId (parseUrl : String → Option ParsedUrl) (env : Env)
    (s : Session) (id : String) (h : s.storedUserId = some id) (hid : id ≠ "") :
    (analyzeManualUrl parseUrl env s).storedUserId = some id := by
  unfold analyzeManualUrl
  by_cases h1 : jsTrim s.view.urlInput = ""
  · simp only [h1, if_true]
    exact h
  · by_cases h2 : isValidHttpUrl parseUrl (jsTrim s.view.urlInput) = true
    · simp only [h1, h2, if_false, Bool.not_true, Bool.false_eq_true]
      have key := analyzeUrl_keeps_userId env (jsTrim s.view.urlInput)
        (setAnalyzeButtonLoading true s) id h hid
      rcases ht : analyzeUrl env (jsTrim s.view.urlInput) (setAnalyzeButtonLoading true s)
        with ⟨res, s1⟩
      rw [ht] at key
      cases res with
      | error e => exact key
      | ok r' => exact key
    · have h2' : isValidHttpUrl parseUrl (jsTrim s.view.urlInput) = false := by
        simpa using h2
      simp only [h1, h2', if_false, Bool.not_false, if_true]
      exact h

/-- A step of a session keeps every entry of the analysis cache. -/
theorem runSessionOp_keeps (op : SessionOp) (s : Session) (k : String) (r : AnalysisResult)
    (h : mapGet s.analysisCache k = some r) :
    mapGet (runSessionOp op s).analysisCache k = some r := by
  cases op with
  | analyze url env => exact analyzeUrl_keeps env url s k r h
  | manual parseUrl text env => exact analyzeManualUrl_keeps parseUrl env _ k r h
  | userId env =>
    show mapGet (getUserId env s).2.analysisCache k = some r
    rw [getUserId_analysisCache]
    exact h

theorem runSessionOps_keeps (ops : List SessionOp) (s : Session) (k : String)
    (r : AnalysisResult) (h : mapGet s.analysisCache k = some r) :
    mapGet (runSessionOps ops s).analysisCache k = some r := by
  induction ops generalizing s with
  | nil => exact h
  | cons op ops ih => exact ih (runSessionOp op s) (runSessionOp_keeps op s k r h)

/-- A step of a session keeps a stored, non-empty user id. -/
theorem runSessionOp_keeps_userId (op : SessionOp) (s : Session) (id : String)
    (h : s.storedUserId = some id) (hid : id ≠ "") :
    (runSessionOp op s).storedUserId = some id := by
  cases op with
  | analyze url env => exact analyzeUrl_keeps_userId env url s id h hid
  | manual parseUrl text env => exact analyzeManualUrl_keeps_userId parseUrl env _ id h hid
  | userId env =>
    show (getUserId env s).2.storedUserId = some id
    rw [getUserId_of_stored env s id h hid]
    exact h

theorem runSessionOps_keeps_userId (ops : List SessionOp) (s : Session) (id : String)
    (h : s.storedUserId = some id) (hid : id ≠ "") :
    (runSessionOps ops s).storedUserId = some id := by
  induction ops generalizing s with
  | nil => exact h
  | cons op ops ih => exact ih (runSessionOp op s) (runSessionOp_keeps_userId op s id h hid)

/-- C3, amended. After a call of `analyzeUrl` that returned a result, every
later call with the same URL string in the same session, whatever calls of
`analyzeUrl` for this or other URLs, of `analyzeManualUrl` and of `getUserId`
come in between, adds no request to the log and returns the same result,
whatever the network would answer. -/
theorem analyzeUrl_repeat_after_success (env1 env2 : Env) (url : String) (s : Session)
    (r : AnalysisResult) (h : (analyzeUrl env1 url s).1 = .ok r) (ops : List SessionOp) :
    (analyzeUrl env2 url (runSessionOps ops (analyzeUrl env1 url s).2)).2.requests
        = (runSessionOps ops (analyzeUrl env1 url s).2).requests ∧
      (analyzeUrl env2 url (runSessionOps ops (analyzeUrl env1 url s).2)).1 = .ok r := by
  obtain ⟨_, h2⟩ := analyzeUrl_ok_cached env1 url s r h
  have h3 := runSessionOps_keeps ops _ url r h2
  rw [analyzeUrl_of_cached env2 url _ r h3]
  exact ⟨rfl, rfl⟩

/-- The amended C3 at `http://example.com`: a successful call, then the
analysis of another URL, a rejected manual input, a manual analysis of a third
URL and a call of `getUserId`, then a call for `http://example.com` while
offline. -/
theorem analyzeUrl_repeat_after_success_witness :
    (analyzeUrl offlineEnv "http://example.com"
      (runSessionOps
        [.analyze "http://other.test" (onlineEnv (plainResult true 90)),
         .manual exampleParseUrl "ftp://example.com" offlineEnv,
         .manual evilParseUrl "https://evil.test" (onlineEnv blacklistMatchResult),
         .userId offlineEnv]
        (analyzeUrl (onlineEnv (plainResult false 10)) "http://example.com"
          newSession).2)).2.requests
      = (runSessionOps
        [.analyze "http://other.test" (onlineEnv (plainResult true 90)),
         .manual exampleParseUrl "ftp://example.com" offlineEnv,
         .manual evilParseUrl "https://evil.test" (onlineEnv blacklistMatchResult),
         .userId offlineEnv]
        (analyzeUrl (onlineEnv (plainResult false 10)) "http://example.com"
          newSession).2).requests ∧
    (analyzeUrl offlineEnv "http://example.com"
      (runSessionOps
        [.analyze "http://other.test" (onlineEnv (plainResult true 90)),
         .manual exampleParseUrl "ftp://example.com" offlineEnv,
         .manual evilParseUrl "https://evil.test" (onlineEnv blacklistMatchResult),
         .userId offlineEnv]
        (analyzeUrl (onlineEnv (plainResult false 10)) "http://example.com"
          newSession).2)).1
      = .ok (plainResult false 10) :=
  analyzeUrl_repeat_after_success (onlineEnv (plainResult false 10)) offlineEnv
    "http://example.com" newSession (plainResult false 10) (by rfl)
    [.analyze "http://other.test" (onlineEnv (plainResult true 90)),
     .manual exampleParseUrl "ftp://example.com" offlineEnv,
     .manual evilParseUrl "https://evil.test" (onlineEnv blacklistMatchResult),
     .userId offlineEnv]

/-- C21. `getUserId` is stable.  When a non-empty id is stored, the call
returns it and writes nothing.  When no id is stored, or an empty one, the call
generates a fresh id, writes it to storage and returns it.  In both cases the
id returned is the id in storage afterwards and is not empty.  Once a call has
returned an id, every later call, in whatever environment and after whatever
calls of `analyzeUrl`, `analyzeManualUrl` and `getUserId`, returns that same id
and leaves the session, its storage included, as it is.  The fresh id of
`crypto.randomUUID` is a non-empty string. -/
theorem getUserId_stable (env : Env) (s : Session) (hfresh : env.freshUserId ≠ "") :
    (∀ id, s.storedUserId = some id → id ≠ "" → getUserId env s = (id, s)) ∧
    ((s.storedUserId = none ∨ s.storedUserId = some "") →
      getUserId env s
        = (env.freshUserId, { s with storedUserId := some env.freshUserId })) ∧
    ((getUserId env s).2.storedUserId = some (getUserId env s).1 ∧
      (getUserId env s).1 ≠ "") ∧
    (∀ env' : Env,
      getUserId env' (getUserId env s).2 = ((getUserId env s).1, (getUserId env s).2)) ∧
    (∀ envs : List Env, applyGetUserId envs (getUserId env s).2 = (getUserId env s).2) ∧
    (∀ (ops : List SessionOp) (env' : Env),
      getUserId env' (runSessionOps ops (getUserId env s).2)
        = ((getUserId env s).1, runSessionOps ops (getUserId env s).2)) := by
  obtain ⟨hst, hne⟩ := getUserId_stored env s hfresh
  have hfix : ∀ env' : Env,
      getUserId env' (getUserId env s).2 = ((getUserId env s).1, (getUserId env s).2) :=
    fun env' => getUserId_of_stored env' _ _ hst hne
  refine ⟨fun id h hid => getUserId_of_stored env s id h hid, fun h => ?_, ⟨hst, hne⟩, hfix,
    fun envs => ?_, fun ops env' => ?_⟩
  · rcases h with h | h
    · simp [getUserId, h]
    · simp [getUserId, h]
  · induction envs with
    | nil => rfl
    | cons e envs ih =>
      show applyGetUserId envs (getUserId e (getUserId env s).2).2 = _
      rw [hfix e]
      exact ih
  · exact getUserId_of_stored env' _ _ (runSessionOps_keeps_userId ops _ _ hst hne) hne

/-- C21 in the new session: the first call generates the fresh id, stores it
and returns it; a second call in an environment with another fresh id returns
the first id and writes nothing; and so does a call after an analysis and a
manual analysis. -/
theorem getUserId_stable_witness :
    getUserId offlineEnv newSession
      = ("00000000-0000-4000-8000-000000000000",
         { newSession with storedUserId := some "00000000-0000-4000-8000-000000000000" }) ∧
    getUserId { offlineEnv with freshUserId := "11111111-1111-4111-8111-111111111111" }
        (getUserId offlineEnv newSession).2
      = ((getUserId offlineEnv newSession).1, (getUserId offlineEnv newSession).2) ∧
    (getUserId { offlineEnv with freshUserId := "11111111-1111-4111-8111-111111111111" }
        (runSessionOps
          [.analyze "http://other.test" (onlineEnv (plainResult true 90)),
           .manual evilParseUrl "https://evil.test" (onlineEnv blacklistMatchResult)]
          (getUserId offlineEnv newSession).2)).1
      = "00000000-0000-4000-8000-000000000000" :=
  ⟨(getUserId_stable offlineEnv newSession (by decide)).2.1 (Or.inl rfl),
   (getUserId_stable offlineEnv newSession (by decide)).2.2.2.1
     { offlineEnv with freshUserId := "11111111-1111-4111-8111-111111111111" },
   congrArg Prod.fst ((getUserId_stable offlineEnv newSession (by decide)).2.2.2.2.2
     [.analyze "http://other.test" (onlineEnv (plainResult true 90)),
      .manual evilParseUrl "https://evil.test" (onlineEnv blacklistMatchResult)]
     { offlineEnv with freshUserId := "11111111-1111-4111-8111-111111111111" })⟩

end Phisher
